import Mathlib

/-!
# TranslatorWiz — verification of the node/Contentful services

Shallow embedding of `src/services/node.service.ts` and
`src/services/contentful.service.ts` of the TranslatorWiz Figma plugin,
together with proofs of the specified properties.

The document (canvas) is modelled as a list of text nodes; the Figma font
subsystem is modelled by a deterministic predicate `loadOk` saying which
fonts `figma.loadFontAsync` can load; JavaScript regular-expression
compilation (`new RegExp p`) is modelled by a function
`compile : String → Option (String → Bool)` returning `none` exactly when
the pattern is malformed (compilation throws) and otherwise the match
predicate `pattern.test`.  The HTTP transport is modelled by explicit
response values (an `Except` wrapping models a rejected fetch / JSON parse).
-/

namespace TranslatorWiz

/-- A Figma font reference (`FontName`): family and style. -/
structure FontName where
  family : String
  style : String
deriving DecidableEq, Repr, Inhabited

/-- A text node's font situation: either a single uniform font, or the
`figma.mixed` sentinel together with the per-character fonts (the value that
`node.getRangeFontName(i, i+1)` reports for each character position `i`). -/
inductive FontAssign where
  | uniform : FontName → FontAssign
  | mixed : List FontName → FontAssign
deriving DecidableEq, Repr

/-- A Figma text node, with the fields the services read or write. -/
structure TextNode where
  id : String
  name : String
  characters : String
  locked : Bool
  hasMissingFont : Bool
  font : FontAssign
deriving DecidableEq, Repr

/-- `interface ContentfulConfig` (src/types/config.types.ts). -/
structure ContentfulConfig where
  SPACE_ID : String
  ENVIRONMENT : String
  CMA_TOKEN : String
  CONTENT_TYPE : String
  KEY_FIELD : String
  VALUE_FIELD : String
  NODE_NAME_PATTERN : String
deriving DecidableEq, Repr

/-- `interface Translation`: a key/value pair. -/
structure Translation where
  key : String
  value : String
deriving DecidableEq, Repr

/-- `interface TextNodeInfo` (src/types/figma.types.ts). -/
structure TextNodeInfo where
  id : String
  name : String
  characters : String
deriving DecidableEq, Repr

/-- `interface FieldMapping`: a Contentful field name paired with a node id. -/
structure FieldMapping where
  field : String
  node : String
deriving DecidableEq, Repr

/-- The font of character position `i` in a mixed-font node, as returned by
`node.getRangeFontName(i, i+1)`. -/
def charFontAt (l : List FontName) (i : Nat) : FontName :=
  l.getD i default

/-- The sequence of fonts the mixed-font loop of the source visits: one per
character position (`for (let i = 0; i < node.characters.length; i++)`). -/
def mixedFontSeq (charCount : Nat) (l : List FontName) : List FontName :=
  (List.range charCount).map (charFontAt l)

/-- The fonts a node's mutation must load before `characters` may be
overwritten: the single font when uniform, one font per character position
when mixed. -/
def requiredFonts (n : TextNode) : List FontName :=
  match n.font with
  | .uniform f => [f]
  | .mixed l => mixedFontSeq n.characters.length l

/-- The sequence of `figma.loadFontAsync` calls actually issued over a list
of fonts: the loop stops at (and includes) the first failing load. -/
def loadCalls (loadOk : FontName → Bool) : List FontName → List FontName
  | [] => []
  | f :: rest => if loadOk f then f :: loadCalls loadOk rest else [f]

/-- Overwriting `node.characters = s`.  A uniform font stays uniform; after
replacing the whole text of a mixed-font node the text takes the font of the
first character, so the node becomes uniform in that font. -/
def setNodeChars (n : TextNode) (s : String) : TextNode :=
  { n with
    characters := s
    font := match n.font with
            | .uniform f => .uniform f
            | .mixed l => .uniform (l.headD default) }

/-- The error message of a rejected `figma.loadFontAsync` call, a
deterministic function of the font (`fontError.message`). -/
def fontFailMsg (f : FontName) : String :=
  "Failed to load font " ++ f.family ++ " " ++ f.style

/-- First font of a node whose load fails, if any (the load loop of the
source throws at the first failing `loadFontAsync`). -/
def firstFailingFont (loadOk : FontName → Bool) (n : TextNode) : Option FontName :=
  (requiredFonts n).find? (fun f => !loadOk f)

/-- Well-formedness of a node's font bookkeeping: a mixed marker carries one
font per character and mixed text is non-empty (Figma reports `figma.mixed`
only when at least two characters carry distinct fonts). -/
def wfFont (n : TextNode) : Bool :=
  match n.font with
  | .uniform _ => true
  | .mixed l => l.length == n.characters.length && !l.isEmpty

/-! ## Node matcher (`getTranslatableNodeCount`, `getTranslatableNodes`) -/

/-- `getTranslatableNodeCount` (node.service.ts:10-28).  The whole body is
wrapped in `try { ... } catch { return 0 }`, so a malformed
`NODE_NAME_PATTERN` (where `new RegExp` throws, `compile _ = none`) yields 0;
otherwise the text nodes of the page are filtered by
`n.name && pattern.test(n.name)`. -/
def getTranslatableNodeCount (compile : String → Option (String → Bool))
    (page : List TextNode) (config : ContentfulConfig) : Nat :=
  match compile config.NODE_NAME_PATTERN with
  | none => 0
  | some test => (page.filter (fun n => n.name != "" && test n.name)).length

/-- Projection of a node to the `TextNodeInfo` sent to the UI. -/
def nodeInfo (n : TextNode) : TextNodeInfo :=
  { id := n.id, name := n.name, characters := n.characters }

/-- `getTranslatableNodes` (node.service.ts:52-65).  There is no
try/catch here: a malformed pattern makes `new RegExp` throw and the
exception propagates to the caller (`Except.error`). -/
def getTranslatableNodes (compile : String → Option (String → Bool))
    (page : List TextNode) (config : ContentfulConfig) :
    Except String (List TextNodeInfo) :=
  match compile config.NODE_NAME_PATTERN with
  | none => .error "SyntaxError: Invalid regular expression"
  | some test => .ok ((page.filter (fun n => test n.name)).map nodeInfo)

/-! ## Translation apply engine (`applyTranslations`) -/

/-- Association-list insert with JavaScript `Map.set` semantics: overwrite an
existing binding in place, else append. -/
def insertA (m : List (String × α)) (k : String) (v : α) : List (String × α) :=
  match m with
  | [] => [(k, v)]
  | (k', v') :: rest =>
    if k' = k then (k, v) :: rest else (k', v') :: insertA rest k v

/-- Association-list lookup (JavaScript `Map.get` / object indexing). -/
def lookupA (m : List (String × α)) (k : String) : Option α :=
  match m with
  | [] => none
  | (k', v) :: rest => if k' = k then some v else lookupA rest k

/-- The translation map built by `applyTranslations` (node.service.ts:75-80):
entries with a falsy (empty) key or value are discarded. -/
def buildTranslationMap (ts : List Translation) : List (String × String) :=
  ts.foldl (fun m t => if t.key != "" && t.value != "" then insertA m t.key t.value else m) []

/-- What happened to one matched node during `applyTranslations`. -/
inductive NodeEvent where
  | untouched
  | err : String → NodeEvent
  | skip : String → NodeEvent
  | success
deriving DecidableEq, Repr

/-- The per-iteration body of `applyTranslations`' node loop
(node.service.ts:99-135): returns the node's final state, the event
recorded for it, and the `loadFontAsync` calls issued on its behalf. -/
def processTransNode (loadOk : FontName → Bool) (tmap : List (String × String))
    (n : TextNode) : TextNode × NodeEvent × List FontName :=
  if n.locked then (n, .skip (n.name ++ ": Locked"), [])
  else
    match lookupA tmap n.name with
    | none => (n, .untouched, [])
    | some translation =>
      if n.hasMissingFont then (n, .err (n.name ++ ": Missing font"), [])
      else
        match firstFailingFont loadOk n with
        | some f => (n, .err (n.name ++ ": " ++ fontFailMsg f), loadCalls loadOk (requiredFonts n))
        | none => (setNodeChars n translation, .success, loadCalls loadOk (requiredFonts n))

/-- The success-count contribution of one node event. -/
def eventCount : NodeEvent → Nat
  | .success => 1
  | _ => 0

/-- The `errors` entries contributed by one node event. -/
def eventErrs : NodeEvent → List String
  | .err e => [e]
  | _ => []

/-- The `skipped` entries contributed by one node event. -/
def eventSkips : NodeEvent → List String
  | .skip s => [s]
  | _ => []

/-- Accumulated outcome of the node loop of `applyTranslations`. -/
structure ApplyOutcome where
  nodes : List TextNode
  count : Nat
  errors : List String
  skipped : List String
deriving DecidableEq, Repr

/-- The node loop of `applyTranslations` over the whole page: nodes whose
name matches the pattern are processed in order, the others are untouched. -/
def applyTransRun (loadOk : FontName → Bool) (tmap : List (String × String))
    (test : String → Bool) : List TextNode → ApplyOutcome
  | [] => ⟨[], 0, [], []⟩
  | n :: rest =>
    if test n.name then
      let p := processTransNode loadOk tmap n
      let r := applyTransRun loadOk tmap test rest
      ⟨p.1 :: r.nodes, eventCount p.2.1 + r.count, eventErrs p.2.1 ++ r.errors,
        eventSkips p.2.1 ++ r.skipped⟩
    else
      let r := applyTransRun loadOk tmap test rest
      ⟨n :: r.nodes, r.count, r.errors, r.skipped⟩

/-- The composite error `applyTranslations` throws when the success count is
zero (node.service.ts:137-145): the first recorded error, else the first
skip, else the generic message. -/
def zeroSuccessMsg (errors skipped : List String) : String :=
  match errors with
  | e :: _ => "Translation failed: " ++ e
  | [] =>
    match skipped with
    | s :: _ => "All nodes skipped: " ++ s
    | [] => "No matching translations found for text nodes"

/-- `applyTranslations` (node.service.ts:74-148).  Returns the final page
(mutations persist even when the function throws) and either the success
count or the thrown error. -/
def applyTranslations (compile : String → Option (String → Bool))
    (loadOk : FontName → Bool) (ts : List Translation)
    (config : ContentfulConfig) (page : List TextNode) :
    List TextNode × Except String Nat :=
  match compile config.NODE_NAME_PATTERN with
  | none => (page, .error "SyntaxError: Invalid regular expression")
  | some test =>
    if (page.filter (fun n => test n.name)).isEmpty then
      (page, .error "No translatable text nodes found on current page")
    else
      let tmap := buildTranslationMap ts
      let r := applyTransRun loadOk tmap test page
      if r.count = 0 then (r.nodes, .error (zeroSuccessMsg r.errors r.skipped))
      else (r.nodes, .ok r.count)

/-! ## Record apply and bulk update (`applyRecordToNodes`, `updateMultipleNodes`) -/

/-- `figma.getNodeByIdAsync` restricted to text nodes: the first node of the
document with the given id (`none` models both "not found" and "not a TEXT
node"). -/
def findNode (doc : List TextNode) (i : String) : Option TextNode :=
  doc.find? (fun n => n.id == i)

/-- In-place mutation `node.characters = s` of the node `getNodeByIdAsync`
returned: the first node of the document with that id is overwritten. -/
def setCharsInDoc : List TextNode → String → String → List TextNode
  | [], _, _ => []
  | n :: rest, i, s =>
    if n.id = i then setNodeChars n s :: rest else n :: setCharsInDoc rest i s

/-- One iteration of the mapping loop of `applyRecordToNodes`
(node.service.ts:158-203).  `recordFields` is the record with `undefined`
and `null` values removed and the survivors already passed through
`String(...)`. -/
def applyRecordStep (loadOk : FontName → Bool) (recordFields : List (String × String))
    (doc : List TextNode) (mapping : FieldMapping) : List TextNode × List String :=
  match findNode doc mapping.node with
  | none => (doc, ["Node not found: " ++ mapping.node])
  | some node =>
    if node.locked then (doc, ["Node is locked: " ++ node.name])
    else
      match lookupA recordFields mapping.field with
      | none => (doc, [])
      | some fieldValue =>
        if node.hasMissingFont then (doc, ["Missing font in node: " ++ node.name])
        else
          match firstFailingFont loadOk node with
          | some f => (doc, ["Error applying to node: " ++ fontFailMsg f])
          | none => (setCharsInDoc doc node.id fieldValue, [])

/-- `applyRecordToNodes` (node.service.ts:155-208): mappings are processed
sequentially; errors are collected (and only warned about), never thrown. -/
def applyRecordToNodes (loadOk : FontName → Bool) (recordFields : List (String × String)) :
    List TextNode → List FieldMapping → List TextNode × List String
  | doc, [] => (doc, [])
  | doc, m :: rest =>
    let (doc', es) := applyRecordStep loadOk recordFields doc m
    let (doc'', es') := applyRecordToNodes loadOk recordFields doc' rest
    (doc'', es ++ es')

/-- Result shape of `updateMultipleNodes`. -/
structure UpdateNodesResult where
  success : Bool
  count : Nat
  errors : Option (List String)
  error : Option String
deriving DecidableEq, Repr

/-- One iteration of the node-id loop of `updateMultipleNodes`
(node.service.ts:233-269).  Note: unlike `applyTranslations` and
`applyRecordToNodes`, the source performs no `locked` check here. -/
def updateNodeStep (loadOk : FontName → Bool) (newText : String)
    (doc : List TextNode) (nodeId : String) : List TextNode × Nat × List String :=
  match findNode doc nodeId with
  | none => (doc, 0, ["Node " ++ nodeId ++ ": Not found or not a text node"])
  | some node =>
    if node.hasMissingFont then (doc, 0, [node.name ++ ": Missing font"])
    else
      match firstFailingFont loadOk node with
      | some f => (doc, 0, ["Node " ++ nodeId ++ ": " ++ fontFailMsg f])
      | none => (setCharsInDoc doc node.id newText, 1, [])

/-- The node-id loop of `updateMultipleNodes`, threading the document. -/
def updateMultipleNodesRun (loadOk : FontName → Bool) (newText : String) :
    List TextNode → List String → List TextNode × Nat × List String
  | doc, [] => (doc, 0, [])
  | doc, i :: rest =>
    let (doc', c, es) := updateNodeStep loadOk newText doc i
    let (doc'', c', es') := updateMultipleNodesRun loadOk newText doc' rest
    (doc'', c + c', es ++ es')

/-- `updateMultipleNodes` (node.service.ts:216-277). -/
def updateMultipleNodes (loadOk : FontName → Bool) (doc : List TextNode)
    (nodeIds : List String) (newText : String) : List TextNode × UpdateNodesResult :=
  if nodeIds.isEmpty then
    (doc, ⟨false, 0, none, some "Invalid node IDs"⟩)
  else
    let (doc', cnt, errs) := updateMultipleNodesRun loadOk newText doc nodeIds
    (doc', ⟨decide (0 < cnt), cnt,
      if errs.isEmpty then none else some errs,
      if cnt = 0 then errs.head? else none⟩)

/-! ## Remote content gateway (`contentful.service.ts`)

Each service call is a pure function of the HTTP responses it would receive;
`Except.error` on the transport side models a rejected `fetchWithTimeout`
(network failure, timeout) or a rejected `response.json()`. -/

/-- One locale item of the `/locales` response; `none` models a field that is
absent or not a string (the source checks `typeof item.code === 'string'`). -/
structure LocaleItem where
  code : Option String
  name : Option String
deriving DecidableEq, Repr

/-- `interface Locale`. -/
structure Locale where
  code : String
  name : String
deriving DecidableEq, Repr

/-- A generic items response: HTTP status line plus the parsed body, where
`items = none` models a body without an `items` array. -/
structure ItemsResp (α : Type) where
  ok : Bool
  status : Nat
  items : Option (List α)
deriving Repr

/-- Prefix every thrown error with the given context, as the
`catch (error) { throw new Error(prefix + error.message) }` blocks do. -/
def wrapErr (pre : String) : Except String β → Except String β
  | .error e => .error (pre ++ e)
  | .ok v => .ok v

/-- JavaScript `String.prototype.trim()`: strip leading and trailing
whitespace (stated over the character data so that it evaluates). -/
def jsTrim (s : String) : String :=
  String.mk (((s.data.dropWhile Char.isWhitespace).reverse.dropWhile
    Char.isWhitespace).reverse)

/-- Body of the `try` block of `fetchLocales` (contentful.service.ts:29-53). -/
def fetchLocalesCore (resp : ItemsResp LocaleItem) : Except String (List Locale) :=
  if !resp.ok then
    if resp.status = 401 || resp.status = 403 then .error "Invalid API credentials"
    else if resp.status = 404 then .error "Space or environment not found"
    else .error "Failed to fetch locales"
  else
    match resp.items with
    | none => .error "Invalid response format"
    | some items =>
      .ok ((items.map (fun it => Locale.mk (it.code.getD "") (it.name.getD "")))
        |>.filter (fun l => jsTrim l.code != "" && jsTrim l.name != ""))

/-- `fetchLocales` (contentful.service.ts:19-60). -/
def fetchLocales (resp : Except String (ItemsResp LocaleItem)) :
    Except String (List Locale) :=
  wrapErr "Failed to load locales: " (resp.bind fetchLocalesCore)

/-- One translation item: its `fields` object, where a value of `none`
models a field that is present but not a string. -/
structure TransItem where
  fields : List (String × Option String)
deriving DecidableEq, Repr

/-- Body of the `try` block of `fetchTranslations`
(contentful.service.ts:86-113). -/
def fetchTranslationsCore (config : ContentfulConfig) (resp : ItemsResp TransItem) :
    Except String (List Translation) :=
  if !resp.ok then
    if resp.status = 401 || resp.status = 403 then .error "Invalid API credentials"
    else if resp.status = 404 then .error "Content type not found"
    else .error "Failed to fetch translations"
  else
    match resp.items with
    | none => .error "Invalid response format"
    | some items =>
      .ok ((items.map (fun it =>
          Translation.mk ((lookupA it.fields config.KEY_FIELD).bind id |>.getD "")
            ((lookupA it.fields config.VALUE_FIELD).bind id |>.getD "")))
        |>.filter (fun t => jsTrim t.key != "" && jsTrim t.value != ""))

/-- `fetchTranslations` (contentful.service.ts:68-120).  The locale
validation happens before the `try` block, so its error is not prefixed. -/
def fetchTranslations (config : ContentfulConfig) (locale : String)
    (resp : Except String (ItemsResp TransItem)) : Except String (List Translation) :=
  if jsTrim locale = "" then .error "Invalid locale"
  else wrapErr "Failed to load translations: " (resp.bind (fetchTranslationsCore config))

/-- Body of the `try` block of `fetchContentTypes`
(contentful.service.ts:137-156); the items are returned unprocessed
(`unknown[]`), so the item type stays abstract. -/
def fetchContentTypesCore {α : Type} (resp : ItemsResp α) : Except String (List α) :=
  if !resp.ok then
    if resp.status = 401 || resp.status = 403 then .error "Invalid API credentials"
    else if resp.status = 404 then .error "Space or environment not found"
    else .error "Failed to fetch content types"
  else
    match resp.items with
    | none => .error "Invalid response format"
    | some items => .ok items

/-- `fetchContentTypes` (contentful.service.ts:127-163). -/
def fetchContentTypes {α : Type} (resp : Except String (ItemsResp α)) :
    Except String (List α) :=
  wrapErr "Failed to load content types: " (resp.bind fetchContentTypesCore)

/-- Body of the `try` block of `fetchRecords`
(contentful.service.ts:183-202); like `fetchContentTypes`, the items are
returned unprocessed. -/
def fetchRecordsCore {α : Type} (resp : ItemsResp α) : Except String (List α) :=
  if !resp.ok then
    if resp.status = 401 || resp.status = 403 then .error "Invalid API credentials"
    else if resp.status = 404 then .error "Content type not found"
    else .error "Failed to fetch records"
  else
    match resp.items with
    | none => .error "Invalid response format"
    | some items => .ok items

/-- `fetchRecords` (contentful.service.ts:171-209). -/
def fetchRecords {α : Type} (resp : Except String (ItemsResp α)) :
    Except String (List α) :=
  wrapErr "Failed to load records: " (resp.bind fetchRecordsCore)

/-- A field definition of a content-type response; `id = none` models a
missing or non-string id (the source checks `typeof f.id === 'string'`). -/
structure ContentTypeFieldItem where
  id : Option String
deriving DecidableEq, Repr

/-- The content-type response `validateContentType` inspects: HTTP status
line plus the `fields` array (`none` models a body whose `fields` is not an
array, which the source replaces by `[]`). -/
structure ContentTypeResp where
  ok : Bool
  status : Nat
  fields : Option (List ContentTypeFieldItem)
deriving Repr

/-- The `{ success, error? }` result of `validateContentType`. -/
structure ValidationResult where
  success : Bool
  error : Option String := none
deriving DecidableEq, Repr

/-- `validateContentType` (contentful.service.ts:216-255).  Note: unlike
the fetch calls, the non-2xx handling has only a 404 branch — every other
non-2xx status, 401 and 403 included, yields the generic
`Content type check failed`; a rejected fetch is caught and its message
returned in the same result shape. -/
def validateContentType (config : ContentfulConfig)
    (resp : Except String ContentTypeResp) : ValidationResult :=
  match resp with
  | .error msg => { success := false, error := some msg }
  | .ok r =>
    if !r.ok then
      if r.status = 404 then { success := false, error := some "Content type not found" }
      else { success := false, error := some "Content type check failed" }
    else
      let fieldNames := (r.fields.getD []).map (fun f => f.id.getD "")
      if ¬ (config.KEY_FIELD ∈ fieldNames) then
        { success := false, error := some "Key field not found in content type" }
      else if ¬ (config.VALUE_FIELD ∈ fieldNames) then
        { success := false, error := some "Value field not found in content type" }
      else
        { success := true }

/-! ### `fetchAllContentfulItems` -/

/-- An entry of the paginated `/entries` response: `sys.id`,
`sys.archivedVersion` (present only on archived entries), and the localized
`fields` object (field id → locale → value). -/
structure EntryItem where
  sysId : String
  archivedVersion : Option Nat
  fields : List (String × List (String × String))
deriving DecidableEq, Repr

/-- The value stored per key in the merged map: `{ value, id }`. -/
structure EntryVal where
  value : String
  id : String
deriving DecidableEq, Repr

/-- A parsed page body: `total` (with `firstData.total || 0` folded in) and
the optional `items` array. -/
structure PageBody where
  total : Nat
  items : Option (List EntryItem)
deriving Repr

/-- The first-page HTTP response (the only one whose `ok`/`status` the
source inspects). -/
structure PageResp where
  ok : Bool
  status : Nat
  statusText : String
  body : PageBody
deriving Repr

/-- The items of a page, with the
`if (pageData.items && Array.isArray(pageData.items))` guard folded in. -/
def pageItems (b : PageBody) : List EntryItem :=
  b.items.getD []

/-- JavaScript localized-field unwrapping
(contentful.service.ts:332-338): `field['en-US'] || field[Object.keys(field)[0]]`,
with the enclosing `if (key && value)` truthiness check: the result is the
`en-US` value when present and non-empty, else the first locale's value when
that is non-empty. -/
def locFieldValue (f : List (String × String)) : Option String :=
  let firstVal := (f.head?.map Prod.snd).bind (fun v => if v = "" then none else some v)
  match lookupA f "en-US" with
  | some v => if v = "" then firstVal else some v
  | none => firstVal

/-- The unwrapped value of a named field of an entry, if usable. -/
def extractField (fields : List (String × List (String × String))) (name : String) :
    Option String :=
  (lookupA fields name).bind locFieldValue

/-- The binding an entry contributes to the merged map, if any: archived
entries and entries without a usable key or value contribute nothing
(contentful.service.ts:317-345). -/
def entryBinding (config : ContentfulConfig) (e : EntryItem) :
    Option (String × EntryVal) :=
  if e.archivedVersion.isSome then none
  else
    match extractField e.fields config.KEY_FIELD,
          extractField e.fields config.VALUE_FIELD with
    | some k, some v => some (k, ⟨v, e.sysId⟩)
    | _, _ => none

/-- One iteration of the item-processing loop: a usable entry is written
into the map (JavaScript object assignment: last write wins), any other
entry is skipped. -/
def processStep (config : ContentfulConfig) (m : List (String × EntryVal))
    (e : EntryItem) : List (String × EntryVal) :=
  match entryBinding config e with
  | none => m
  | some (k, v) => insertA m k v

/-- The item-processing loop over the concatenated pages. -/
def processItems (config : ContentfulConfig) (l : List EntryItem) :
    List (String × EntryVal) :=
  l.foldl (processStep config) []

/-- The page numbers of the remaining requests
(contentful.service.ts:290-306): pages `1..ceil((total-limit)/limit)`,
issued only when `total > limit`. -/
def remainingPageNums (total limit : Nat) : List Nat :=
  if total > limit then (List.range ((total - limit + limit - 1) / limit)).map (· + 1)
  else []

/-- The entries the merge loop visits: the first page's items followed by
the items of each remaining page in page order, where a remaining page whose
request or parse failed is replaced by `{ items: [] }` by the `.catch`
handler (contentful.service.ts:301-304). -/
def pageAssembly (r : PageResp) (rest : Nat → Except String PageBody) :
    List EntryItem :=
  pageItems r.body ++ (remainingPageNums r.body.total 1000).flatMap (fun k =>
    match rest k with
    | .ok b => pageItems b
    | .error _ => [])

/-- `fetchAllContentfulItems` (contentful.service.ts:262-357).  `first` is
the first-page request's outcome; `rest k` the outcome of the request for
page `k`.  Only the first page's HTTP status is checked, and any non-2xx
first-page status throws the generic `HTTP <status>: <statusText>` error;
failures of the remaining pages are swallowed by their `.catch`. -/
def fetchAllContentfulItems (config : ContentfulConfig)
    (first : Except String PageResp) (rest : Nat → Except String PageBody) :
    Except String (List (String × EntryVal)) :=
  wrapErr "Failed to fetch Contentful items: "
    (match first with
     | .error e => .error e
     | .ok r =>
       if !r.ok then .error ("HTTP " ++ toString r.status ++ ": " ++ r.statusText)
       else .ok (processItems config (pageAssembly r rest)))

/-! ### `saveItemToContentful` -/

/-- `interface ContentfulSaveItem`. -/
structure ContentfulSaveItem where
  key : String
  value : String
  isUpdate : Bool := false
  entryId : Option String := none
deriving DecidableEq, Repr

/-- `errorDetails` of a save result. -/
structure ErrorDetails where
  status : Option Nat := none
  response : Option String := none
  operation : String
  entryId : Option String := none
  version : Option Nat := none
  key : Option String := none
  exception : Option String := none
deriving DecidableEq, Repr

/-- `interface ContentfulSaveResult`. -/
structure ContentfulSaveResult where
  success : Bool
  error : Option String := none
  errorDetails : Option ErrorDetails := none
deriving DecidableEq, Repr

/-- A response to one step of the save protocol: HTTP status, the raw body
text (read by the error branches), and the parsed `sys.id` / `sys.version`
(read by the success branches). -/
structure SaveResp where
  ok : Bool
  status : Nat
  text : String
  sysId : String
  sysVersion : Nat
deriving DecidableEq, Repr

/-- The HTTP requests `saveItemToContentful` can issue, in the order and
with the data the source puts on the wire. -/
inductive SaveReq where
  | getEntry : String → SaveReq
  | putUpdate : (entryId : String) → (version : Nat) → (key : String) → (value : String) → SaveReq
  | putPublish : (entryId : String) → (version : Nat) → SaveReq
  | postCreate : (key : String) → (value : String) → SaveReq
  | putPublishNew : (entryId : String) → (version : Nat) → SaveReq
deriving DecidableEq, Repr

/-- Whether a request is one of the two publish calls. -/
def SaveReq.isPublish : SaveReq → Bool
  | .putPublish _ _ => true
  | .putPublishNew _ _ => true
  | _ => false

/-- JavaScript truthiness of `item.entryId`. -/
def truthyOpt : Option String → Bool
  | some s => s != ""
  | none => false

/-- The result of the `catch` block of `saveItemToContentful`
(contentful.service.ts:495-509) for a network-level rejection with message
`msg`. -/
def saveCatchResult (item : ContentfulSaveItem) (msg : String) : ContentfulSaveResult :=
  { success := false, error := some msg,
    errorDetails := some { operation := if item.isUpdate then "update" else "create",
                           exception := some "Error" } }

/-- `saveItemToContentful` (contentful.service.ts:365-510).  `responses` is
the sequence of outcomes of the HTTP calls, consumed in order; an
`Except.error` entry (or an exhausted list) models a rejected fetch, which
the outer `catch` converts to a failure result.  Returns the result and the
trace of requests issued. -/
def saveItemToContentful (config : ContentfulConfig) (item : ContentfulSaveItem)
    (responses : List (Except String SaveResp)) :
    ContentfulSaveResult × List SaveReq :=
  if item.isUpdate && truthyOpt item.entryId then
    let eid := item.entryId.getD ""
    match responses with
    | [] => (saveCatchResult item "Failed to fetch", [.getEntry eid])
    | .error msg :: _ => (saveCatchResult item msg, [.getEntry eid])
    | .ok r1 :: rs1 =>
      if !r1.ok then
        ({ success := false,
           error := some ("Could not fetch entry (" ++ toString r1.status ++ ")"),
           errorDetails := some { status := some r1.status, response := some r1.text,
                                  operation := "fetch", entryId := some eid } },
         [.getEntry eid])
      else
        let version := r1.sysVersion
        let updReq := SaveReq.putUpdate eid version item.key item.value
        match rs1 with
        | [] => (saveCatchResult item "Failed to fetch", [.getEntry eid, updReq])
        | .error msg :: _ => (saveCatchResult item msg, [.getEntry eid, updReq])
        | .ok r2 :: rs2 =>
          if !r2.ok then
            ({ success := false,
               error := some ("Update failed (" ++ toString r2.status ++ ")"),
               errorDetails := some { status := some r2.status, response := some r2.text,
                                      operation := "update", entryId := some eid,
                                      version := some version } },
             [.getEntry eid, updReq])
          else
            let pubReq := SaveReq.putPublish eid r2.sysVersion
            match rs2 with
            | [] => (saveCatchResult item "Failed to fetch", [.getEntry eid, updReq, pubReq])
            | .error msg :: _ => (saveCatchResult item msg, [.getEntry eid, updReq, pubReq])
            | .ok r3 :: _ =>
              if !r3.ok then
                ({ success := false,
                   error := some ("Publish failed (" ++ toString r3.status ++ ")"),
                   errorDetails := some { status := some r3.status, response := some r3.text,
                                          operation := "publish", entryId := some eid } },
                 [.getEntry eid, updReq, pubReq])
              else
                ({ success := true }, [.getEntry eid, updReq, pubReq])
  else
    let createReq := SaveReq.postCreate item.key item.value
    match responses with
    | [] => (saveCatchResult item "Failed to fetch", [createReq])
    | .error msg :: _ => (saveCatchResult item msg, [createReq])
    | .ok r1 :: rs1 =>
      if !r1.ok then
        ({ success := false,
           error := some ("Create failed (" ++ toString r1.status ++ ")"),
           errorDetails := some { status := some r1.status, response := some r1.text,
                                  operation := "create", key := some item.key } },
         [createReq])
      else
        let pubReq := SaveReq.putPublishNew r1.sysId r1.sysVersion
        match rs1 with
        | [] => (saveCatchResult item "Failed to fetch", [createReq, pubReq])
        | .error msg :: _ => (saveCatchResult item msg, [createReq, pubReq])
        | .ok r2 :: _ =>
          if !r2.ok then
            ({ success := false,
               error := some ("Created but publish failed (" ++ toString r2.status ++ ")"),
               errorDetails := some { status := some r2.status, response := some r2.text,
                                      operation := "publish-new", entryId := some r1.sysId } },
             [createReq, pubReq])
          else
            ({ success := true }, [createReq, pubReq])

/-! ## Concrete instances used by witnesses and counterexamples -/

/-- `defaultConfig` (src/constants.ts). -/
def defaultConfig : ContentfulConfig :=
  { SPACE_ID := "", ENVIRONMENT := "master", CMA_TOKEN := "",
    CONTENT_TYPE := "translation", KEY_FIELD := "key", VALUE_FIELD := "value",
    NODE_NAME_PATTERN := "^jams_" }

/-- The match predicate of the compiled default pattern `^jams_`. -/
def jamsTest (s : String) : Bool :=
  "jams_".data.isPrefixOf s.data

/-- A regex-compilation environment where the default pattern `^jams_`
compiles to the prefix test and every other pattern is malformed. -/
def jamsCompile : String → Option (String → Bool) :=
  fun p => if p = "^jams_" then some jamsTest else none

/-- A font environment where every font loads. -/
def allFontsOk : FontName → Bool := fun _ => true

/-- A concrete font. -/
def arial : FontName := ⟨"Arial", "Regular"⟩

/-- A locked text node matching the default pattern. -/
def lockedNodeW : TextNode :=
  { id := "1:1", name := "jams_hello", characters := "Old", locked := true,
    hasMissingFont := false, font := .uniform arial }

/-- An unlocked text node matching the default pattern. -/
def plainNodeW : TextNode :=
  { id := "1:2", name := "jams_hello", characters := "Old", locked := false,
    hasMissingFont := false, font := .uniform arial }

/-- An unlocked mixed-font node whose two characters carry the same font. -/
def mixedTwiceNodeW : TextNode :=
  { id := "2:1", name := "jams_hello", characters := "ab", locked := false,
    hasMissingFont := false, font := .mixed [arial, arial] }

/-- A live (non-archived) entry keyed `jams_hello`. -/
def liveEntryW : EntryItem :=
  { sysId := "E1", archivedVersion := none,
    fields := [("key", [("en-US", "jams_hello")]), ("value", [("en-US", "Hello")])] }

/-- An archived entry (its `sys.archivedVersion` is defined) keyed
`jams_old`. -/
def archivedEntryW : EntryItem :=
  { sysId := "E9", archivedVersion := some 3,
    fields := [("key", [("en-US", "jams_old")]), ("value", [("en-US", "Old")])] }

/-- A successful single-page response carrying one live and one archived
entry. -/
def firstPageW : PageResp :=
  { ok := true, status := 200, statusText := "OK",
    body := { total := 2, items := some [liveEntryW, archivedEntryW] } }

/-- A page reader that is never consulted. -/
def noRestW : Nat → Except String PageBody := fun _ => .error "unused"

/-- The `i`-th distinct key of the pagination witness: `"k"` followed by `i`
copies of `'a'` (distinct lengths make distinctness provable). -/
def mkKeyW (i : Nat) : String :=
  String.mk ('k' :: List.replicate i 'a')

/-- The `i`-th entry of the pagination witness. -/
def mkEntryW (i : Nat) : EntryItem :=
  { sysId := mkKeyW i, archivedVersion := none,
    fields := [("key", [("en-US", mkKeyW i)]), ("value", [("en-US", "v")])] }

/-- The 1000 first-page entries of the pagination witness. -/
def pageOneW : List EntryItem :=
  ((List.range 1500).take 1000).map mkEntryW

/-- The 500 second-page entries of the pagination witness. -/
def pageTwoW : List EntryItem :=
  ((List.range 1500).drop 1000).map mkEntryW

/-- First-page response declaring a total of 1500 with 1000 items. -/
def firstPage1500W : PageResp :=
  { ok := true, status := 200, statusText := "OK",
    body := { total := 1500, items := some pageOneW } }

/-- Page reader serving the 500 remaining entries as page 1. -/
def restW : Nat → Except String PageBody :=
  fun _ => .ok { total := 0, items := some pageTwoW }

/-- First-page response declaring a total of 1500 but carrying one item —
used to show a failing later page is silently replaced by an empty page. -/
def firstSmallW : PageResp :=
  { ok := true, status := 200, statusText := "OK",
    body := { total := 1500, items := some [liveEntryW] } }

/-- A page reader whose every request fails. -/
def failRestW : Nat → Except String PageBody := fun _ => .error "network down"

/-! # Lemmas and theorems -/

section Lemmas

/-- The node loop of `applyTranslations` never changes a node it did not
successfully translate. -/
theorem processTransNode_untouched_of_count_zero (loadOk : FontName → Bool)
    (tmap : List (String × String)) (n : TextNode)
    (h : eventCount (processTransNode loadOk tmap n).2.1 = 0) :
    (processTransNode loadOk tmap n).1 = n := by
  unfold processTransNode at *
  by_cases hl : n.locked <;> simp [hl] at h ⊢
  cases htr : lookupA tmap n.name with
  | none => simp [htr]
  | some tr =>
    by_cases hm : n.hasMissingFont <;> simp [htr, hm] at h ⊢
    cases hf : firstFailingFont loadOk n with
    | none => simp [hf, eventCount] at h
    | some f => simp [hf]

/-- `processTransNode` preserves the node's name. -/
theorem processTransNode_name (loadOk : FontName → Bool)
    (tmap : List (String × String)) (n : TextNode) :
    (processTransNode loadOk tmap n).1.name = n.name := by
  unfold processTransNode
  by_cases hl : n.locked <;> simp [hl]
  cases htr : lookupA tmap n.name with
  | none => simp
  | some tr =>
    by_cases hm : n.hasMissingFont <;> simp [hm]
    cases hf : firstFailingFont loadOk n with
    | none => simp [setNodeChars]
    | some f => simp

/-- `processTransNode` leaves a locked node untouched and records it as
skipped. -/
theorem processTransNode_locked (loadOk : FontName → Bool)
    (tmap : List (String × String)) (n : TextNode) (h : n.locked = true) :
    processTransNode loadOk tmap n = (n, .skip (n.name ++ ": Locked"), []) := by
  simp [processTransNode, h]

/-- Locked nodes keep their position and full state through the node loop of
`applyTranslations`. -/
theorem applyTransRun_locked_preserved (loadOk : FontName → Bool)
    (tmap : List (String × String)) (test : String → Bool) :
    ∀ (page : List TextNode) (i : Nat) (n : TextNode),
      page[i]? = some n → n.locked = true →
      (applyTransRun loadOk tmap test page).nodes[i]? = some n := by
  intro page
  induction page with
  | nil => intro i n h _; simp at h
  | cons hd tl ih =>
    intro i n h hl
    cases i with
    | zero =>
      rw [List.getElem?_cons_zero, Option.some_inj] at h
      subst h
      by_cases ht : test hd.name
      · simp [applyTransRun, ht, processTransNode_locked loadOk tmap hd hl]
      · simp [applyTransRun, ht]
    | succ j =>
      rw [List.getElem?_cons_succ] at h
      by_cases ht : test hd.name <;>
        simpa [applyTransRun, ht] using ih j n h hl

/-- A matched locked node is recorded in the `skipped` list. -/
theorem applyTransRun_locked_skipped (loadOk : FontName → Bool)
    (tmap : List (String × String)) (test : String → Bool) :
    ∀ (page : List TextNode) (n : TextNode), n ∈ page → n.locked = true →
      test n.name = true →
      (n.name ++ ": Locked") ∈ (applyTransRun loadOk tmap test page).skipped := by
  intro page
  induction page with
  | nil => intro n h; simp at h
  | cons hd tl ih =>
    intro n h hl ht
    rcases List.mem_cons.mp h with rfl | hmem
    · simp [applyTransRun, ht, processTransNode_locked loadOk tmap n hl, eventSkips]
    · by_cases hhd : test hd.name
      · simpa [applyTransRun, hhd] using Or.inr (ih n hmem hl ht)
      · simpa [applyTransRun, hhd] using ih n hmem hl ht

/-- Locked nodes survive `applyTranslations` itself (whether it throws or
returns a count). -/
theorem applyTranslations_locked_preserved
    (compile : String → Option (String → Bool)) (loadOk : FontName → Bool)
    (ts : List Translation) (config : ContentfulConfig) (page : List TextNode)
    (i : Nat) (n : TextNode) (h : page[i]? = some n) (hl : n.locked = true) :
    (applyTranslations compile loadOk ts config page).1[i]? = some n := by
  unfold applyTranslations
  cases hc : compile config.NODE_NAME_PATTERN with
  | none => simpa using h
  | some test =>
    by_cases he : (page.filter (fun n => test n.name)).isEmpty
    · simpa [he] using h
    · simp only [he, Bool.false_eq_true, if_false]
      by_cases hz : (applyTransRun loadOk (buildTranslationMap ts) test page).count = 0 <;>
        simpa [hz] using applyTransRun_locked_preserved loadOk _ test page i n h hl

/-- If `figma.getNodeByIdAsync` finds an unlocked node, overwriting its
characters leaves every locked node of the document in place. -/
theorem setCharsInDoc_locked_preserved (s : String) :
    ∀ (doc : List TextNode) (j : String) (n₀ : TextNode),
      findNode doc j = some n₀ → n₀.locked = false →
      ∀ (i : Nat) (n : TextNode), doc[i]? = some n → n.locked = true →
        (setCharsInDoc doc j s)[i]? = some n := by
  intro doc
  induction doc with
  | nil => intro j n₀ h; simp [findNode] at h
  | cons hd tl ih =>
    intro j n₀ h h0 i n hi hl
    by_cases hid : hd.id = j
    · have hfound : n₀ = hd := by
        simp [findNode, List.find?_cons_of_pos, hid] at h
        exact h.symm
      subst hfound
      cases i with
      | zero =>
        rw [List.getElem?_cons_zero, Option.some_inj] at hi
        subst hi
        rw [h0] at hl
        exact absurd hl (by simp)
      | succ k =>
        rw [List.getElem?_cons_succ] at hi
        simpa [setCharsInDoc, hid] using hi
    · have h' : findNode tl j = some n₀ := by
        simpa [findNode, List.find?_cons_of_neg, hid] using h
      cases i with
      | zero =>
        rw [List.getElem?_cons_zero, Option.some_inj] at hi
        subst hi
        simp [setCharsInDoc, hid]
      | succ k =>
        rw [List.getElem?_cons_succ] at hi
        simpa [setCharsInDoc, hid] using ih j n₀ h' h0 k n hi hl

/-- The element `findNode` returns carries the id it was looked up by. -/
theorem findNode_id {doc : List TextNode} {j : String} {n : TextNode}
    (h : findNode doc j = some n) : n.id = j := by
  have := List.find?_some h
  simpa using this

/-- One `applyRecordToNodes` mapping step never changes a locked node. -/
theorem applyRecordStep_locked_preserved (loadOk : FontName → Bool)
    (fields : List (String × String)) (doc : List TextNode) (m : FieldMapping)
    (i : Nat) (n : TextNode) (h : doc[i]? = some n) (hl : n.locked = true) :
    (applyRecordStep loadOk fields doc m).1[i]? = some n := by
  unfold applyRecordStep
  cases hf : findNode doc m.node with
  | none => simpa using h
  | some node =>
    by_cases hnl : node.locked
    · simpa [hnl] using h
    · simp only [hnl, Bool.false_eq_true, if_false]
      cases hv : lookupA fields m.field with
      | none => simpa using h
      | some v =>
        by_cases hm : node.hasMissingFont
        · simpa [hm] using h
        · simp only [hm, Bool.false_eq_true, if_false]
          cases hff : firstFailingFont loadOk node with
          | some f => simpa using h
          | none =>
            have hid : node.id = m.node := findNode_id hf
            rw [hid] at *
            simpa using setCharsInDoc_locked_preserved v doc m.node node hf
              (by simpa using hnl) i n h hl

/-- Locked nodes survive `applyRecordToNodes` unchanged. -/
theorem applyRecordToNodes_locked_preserved (loadOk : FontName → Bool)
    (fields : List (String × String)) :
    ∀ (mappings : List FieldMapping) (doc : List TextNode) (i : Nat) (n : TextNode),
      doc[i]? = some n → n.locked = true →
      (applyRecordToNodes loadOk fields doc mappings).1[i]? = some n := by
  intro mappings
  induction mappings with
  | nil => intro doc i n h _; simpa [applyRecordToNodes] using h
  | cons m rest ih =>
    intro doc i n h hl
    have hstep := applyRecordStep_locked_preserved loadOk fields doc m i n h hl
    simpa [applyRecordToNodes] using ih (applyRecordStep loadOk fields doc m).1 i n hstep hl

/-- A mapping that resolves to a locked node is refused with a
`Node is locked` error and no mutation. -/
theorem applyRecordStep_locked_error (loadOk : FontName → Bool)
    (fields : List (String × String)) (doc : List TextNode) (m : FieldMapping)
    (n : TextNode) (hf : findNode doc m.node = some n) (hl : n.locked = true) :
    applyRecordStep loadOk fields doc m = (doc, ["Node is locked: " ++ n.name]) := by
  simp [applyRecordStep, hf, hl]

end Lemmas

section Claims

/-- C1, counterexample: `updateMultipleNodes` performs no `locked` check, so
a locked text node whose fonts load is overwritten: starting from a document
holding one locked node with characters `"Old"`, the call rewrites its
characters to `"NEW"`, leaves it locked, and counts it as a success —
contradicting the claim that every write path treats locked nodes as
read-only. -/
theorem updateMultipleNodes_overwrites_locked_node :
    lockedNodeW.locked = true
    ∧ lockedNodeW.characters = "Old"
    ∧ ((updateMultipleNodes allFontsOk [lockedNodeW] ["1:1"] "NEW").1.map
        (fun n => n.characters)) = ["NEW"]
    ∧ ((updateMultipleNodes allFontsOk [lockedNodeW] ["1:1"] "NEW").1.map
        (fun n => n.locked)) = [true]
    ∧ (updateMultipleNodes allFontsOk [lockedNodeW] ["1:1"] "NEW").2.count = 1
    ∧ (updateMultipleNodes allFontsOk [lockedNodeW] ["1:1"] "NEW").2.success = true := by
  decide

/-- C1 (amended): locked nodes are read-only in `applyTranslations` (the
node keeps its position and full state, and a matched locked node is
recorded in the skip list) and in `applyRecordToNodes` (the node is
preserved, and a mapping resolving to a locked node is recorded as a
`Node is locked` error with no mutation); `updateMultipleNodes`, however,
performs no locked check. -/
theorem locked_nodes_readonly_in_translation_and_record_paths :
    (∀ (compile : String → Option (String → Bool)) (loadOk : FontName → Bool)
        (ts : List Translation) (config : ContentfulConfig) (page : List TextNode)
        (i : Nat) (n : TextNode), page[i]? = some n → n.locked = true →
        (applyTranslations compile loadOk ts config page).1[i]? = some n)
    ∧ (∀ (loadOk : FontName → Bool) (tmap : List (String × String))
        (test : String → Bool) (page : List TextNode) (n : TextNode),
        n ∈ page → n.locked = true → test n.name = true →
        (n.name ++ ": Locked") ∈ (applyTransRun loadOk tmap test page).skipped)
    ∧ (∀ (loadOk : FontName → Bool) (fields : List (String × String))
        (mappings : List FieldMapping) (doc : List TextNode) (i : Nat) (n : TextNode),
        doc[i]? = some n → n.locked = true →
        (applyRecordToNodes loadOk fields doc mappings).1[i]? = some n)
    ∧ (∀ (loadOk : FontName → Bool) (fields : List (String × String))
        (doc : List TextNode) (m : FieldMapping) (n : TextNode),
        findNode doc m.node = some n → n.locked = true →
        applyRecordStep loadOk fields doc m = (doc, ["Node is locked: " ++ n.name])) :=
  ⟨fun compile loadOk ts config page i n h hl =>
      applyTranslations_locked_preserved compile loadOk ts config page i n h hl,
   fun loadOk tmap test page n h hl ht =>
      applyTransRun_locked_skipped loadOk tmap test page n h hl ht,
   fun loadOk fields mappings doc i n h hl =>
      applyRecordToNodes_locked_preserved loadOk fields mappings doc i n h hl,
   fun loadOk fields doc m n hf hl =>
      applyRecordStep_locked_error loadOk fields doc m n hf hl⟩

/-- C1, witness: the amended theorem applied to a concrete page holding one
locked node named `jams_hello`: `applyTranslations` keeps the node intact
and records `jams_hello: Locked` as skipped, and `applyRecordToNodes`
refuses the mapping with a `Node is locked` error. -/
theorem locked_nodes_readonly_witness :
    (applyTranslations jamsCompile allFontsOk [⟨"jams_hello", "New"⟩] defaultConfig
        [lockedNodeW]).1[0]? = some lockedNodeW
    ∧ ("jams_hello: Locked")
        ∈ (applyTransRun allFontsOk [("jams_hello", "New")] jamsTest [lockedNodeW]).skipped
    ∧ applyRecordStep allFontsOk [("title", "New")] [lockedNodeW] ⟨"title", "1:1"⟩
        = ([lockedNodeW], ["Node is locked: jams_hello"]) := by
  refine ⟨?_, ?_, ?_⟩
  · exact locked_nodes_readonly_in_translation_and_record_paths.1 jamsCompile allFontsOk
      [⟨"jams_hello", "New"⟩] defaultConfig [lockedNodeW] 0 lockedNodeW (by decide) (by decide)
  · exact locked_nodes_readonly_in_translation_and_record_paths.2.1 allFontsOk
      [("jams_hello", "New")] jamsTest [lockedNodeW] lockedNodeW
      (by decide) (by decide) (by decide)
  · exact locked_nodes_readonly_in_translation_and_record_paths.2.2.2 allFontsOk
      [("title", "New")] [lockedNodeW] ⟨"title", "1:1"⟩ lockedNodeW (by decide) (by decide)

/-- C3, counterexample: for a malformed pattern (one `new RegExp` rejects,
modelled by a compile environment returning `none`), `getTranslatableNodes`
lets the compilation exception propagate past the matcher instead of
returning an empty result, and `getTranslatableNodeCount` returns the same
`0` an ordinary zero-matches page yields, so no distinct "invalid pattern"
signal exists — both halves of the claim fail. -/
theorem node_matcher_invalid_pattern_claim_fails :
    getTranslatableNodes (fun _ => none) [plainNodeW] defaultConfig
      = .error "SyntaxError: Invalid regular expression"
    ∧ getTranslatableNodeCount (fun _ => none) [plainNodeW] defaultConfig = 0
    ∧ getTranslatableNodeCount jamsCompile [] defaultConfig = 0 := by
  refine ⟨rfl, rfl, rfl⟩

/-- C3 (amended): on a malformed node-name pattern,
`getTranslatableNodeCount` catches the compilation error and returns 0 —
indistinguishable from the normal zero-nodes-found case — while
`getTranslatableNodes` propagates the compilation exception to its
caller. -/
theorem node_matcher_invalid_pattern_behaviour
    (compile : String → Option (String → Bool)) (page : List TextNode)
    (config : ContentfulConfig) (hbad : compile config.NODE_NAME_PATTERN = none) :
    getTranslatableNodeCount compile page config = 0
    ∧ getTranslatableNodes compile page config
        = .error "SyntaxError: Invalid regular expression" := by
  constructor
  · simp [getTranslatableNodeCount, hbad]
  · simp [getTranslatableNodes, hbad]

/-- C3, witness: the amended behaviour at a concrete malformed-pattern
environment and a non-empty page. -/
theorem node_matcher_invalid_pattern_behaviour_witness :
    getTranslatableNodeCount (fun _ => none) [plainNodeW, lockedNodeW] defaultConfig = 0
    ∧ getTranslatableNodes (fun _ => none) [plainNodeW, lockedNodeW] defaultConfig
        = .error "SyntaxError: Invalid regular expression" :=
  node_matcher_invalid_pattern_behaviour (fun _ => none) [plainNodeW, lockedNodeW]
    defaultConfig rfl

/-- C4: given a compiling pattern and at least one matched node,
`applyTranslations` throws if and only if its per-node success count is
zero; in the zero-success case the thrown error is `zeroSuccessMsg`, which
surfaces the first recorded font/mutation error, else the first locked-skip
reason, else the generic no-matching-translations message; with at least one
success the count is returned and errors/skips are not surfaced. -/
theorem applyTranslations_throws_iff_zero_success
    (compile : String → Option (String → Bool)) (loadOk : FontName → Bool)
    (ts : List Translation) (config : ContentfulConfig) (page : List TextNode)
    (test : String → Bool) (hc : compile config.NODE_NAME_PATTERN = some test)
    (hm : (page.filter (fun n => test n.name)).isEmpty = false) :
    ((∃ e, (applyTranslations compile loadOk ts config page).2 = .error e)
      ↔ (applyTransRun loadOk (buildTranslationMap ts) test page).count = 0)
    ∧ ((applyTransRun loadOk (buildTranslationMap ts) test page).count = 0 →
        (applyTranslations compile loadOk ts config page).2
          = .error (zeroSuccessMsg
              (applyTransRun loadOk (buildTranslationMap ts) test page).errors
              (applyTransRun loadOk (buildTranslationMap ts) test page).skipped))
    ∧ ((applyTransRun loadOk (buildTranslationMap ts) test page).count ≠ 0 →
        (applyTranslations compile loadOk ts config page).2
          = .ok (applyTransRun loadOk (buildTranslationMap ts) test page).count) := by
  unfold applyTranslations
  rw [hc]
  simp only [hm, Bool.false_eq_true, if_false]
  by_cases hz : (applyTransRun loadOk (buildTranslationMap ts) test page).count = 0 <;>
    simp [hz]

/-- C4, witness: the all-locked scenario of the spec — a single locked
matched node, zero successes, and the thrown error surfaces the first skip
reason. -/
theorem applyTranslations_throws_iff_zero_success_witness :
    (applyTranslations jamsCompile allFontsOk [⟨"jams_hello", "New"⟩] defaultConfig
        [lockedNodeW]).2 = .error "All nodes skipped: jams_hello: Locked" := by
  have h := (applyTranslations_throws_iff_zero_success jamsCompile allFontsOk
    [⟨"jams_hello", "New"⟩] defaultConfig [lockedNodeW] jamsTest rfl (by decide)).2.1
  rw [h (by decide)]
  rfl

/-- C8, counterexample: the mutator does not deduplicate font loads by
(family, style).  A mixed-font node of two characters that both carry
`Arial Regular` triggers two `loadFontAsync` calls for the same font (the
source builds a `uniqueFonts` set but never uses it — it awaits a load per
character position), refuting the claim that no font is loaded more than
once per distinct (family, style) pair. -/
theorem mixed_font_load_deduplication_fails :
    (processTransNode allFontsOk [("jams_hello", "NEW")] mixedTwiceNodeW).2.2
      = [arial, arial]
    ∧ ¬ ((processTransNode allFontsOk [("jams_hello", "NEW")] mixedTwiceNodeW).2.2).Nodup
    ∧ (processTransNode allFontsOk [("jams_hello", "NEW")] mixedTwiceNodeW).1.characters
      = "NEW" := by
  decide

/-- C8 (amended): for a mixed-font node reached for mutation, the mutator
iterates every character position and loads that position's run font — one
`loadFontAsync` call per position, stopping at the first failure, without
deduplication (the `(family, style)` set is computed but unused) — and
overwrites `characters` only when every per-position load succeeded; on any
load failure the node is left unchanged. -/
theorem mixed_font_mutation_loads_per_position
    (loadOk : FontName → Bool) (tmap : List (String × String)) (n : TextNode)
    (tr : String) (l : List FontName) (hl : n.locked = false)
    (htr : lookupA tmap n.name = some tr) (hm : n.hasMissingFont = false)
    (hf : n.font = .mixed l) :
    (processTransNode loadOk tmap n).2.2
      = loadCalls loadOk (mixedFontSeq n.characters.length l)
    ∧ ((mixedFontSeq n.characters.length l).all loadOk = true →
        (processTransNode loadOk tmap n).2.2 = mixedFontSeq n.characters.length l
        ∧ (processTransNode loadOk tmap n).1.characters = tr)
    ∧ ((mixedFontSeq n.characters.length l).all loadOk = false →
        (processTransNode loadOk tmap n).1 = n) := by
  have hreq : requiredFonts n = mixedFontSeq n.characters.length l := by
    simp [requiredFonts, hf]
  by_cases hall : (mixedFontSeq n.characters.length l).all loadOk = true
  · have hnone : firstFailingFont loadOk n = none := by
      rw [firstFailingFont, hreq, List.find?_eq_none]
      intro f hfmem
      simpa using List.all_eq_true.mp hall f hfmem
    have hcalls : loadCalls loadOk (mixedFontSeq n.characters.length l)
        = mixedFontSeq n.characters.length l := by
      have : ∀ fonts : List FontName, fonts.all loadOk = true →
          loadCalls loadOk fonts = fonts := by
        intro fonts
        induction fonts with
        | nil => intro; rfl
        | cons f rest ih =>
          intro hall'
          have := List.all_eq_true.mp hall'
          simp [loadCalls, this f (by simp), ih (List.all_eq_true.mpr
            (fun x hx => this x (List.mem_cons_of_mem f hx)))]
      exact this _ hall
    refine ⟨?_, fun _ => ⟨?_, ?_⟩, fun hcon => absurd hall (by simp [hcon])⟩ <;>
      simp [processTransNode, hl, htr, hm, hnone, hreq, hcalls, setNodeChars]
  · have hsome : ∃ f, firstFailingFont loadOk n = some f := by
      rw [firstFailingFont, hreq]
      rcases List.all_eq_true.not.mp hall with hex
      have : ∃ f ∈ mixedFontSeq n.characters.length l, !loadOk f := by
        push_neg at hex
        rcases hex with ⟨f, hfmem, hfno⟩
        exact ⟨f, hfmem, by simp [hfno]⟩
      rcases List.find?_isSome.mpr this with h
      rcases Option.isSome_iff_exists.mp h with ⟨f, hfeq⟩
      exact ⟨f, hfeq⟩
    rcases hsome with ⟨f, hfeq⟩
    refine ⟨?_, fun hcon => absurd hcon (by simp [hall]), fun _ => ?_⟩ <;>
      simp [processTransNode, hl, htr, hm, hfeq, hreq]

/-- C8, witness: the amended behaviour at the concrete two-character
mixed-font node: exactly one load per character position and the mutation
performed after both loads. -/
theorem mixed_font_mutation_loads_per_position_witness :
    (processTransNode allFontsOk [("jams_hello", "NEW")] mixedTwiceNodeW).2.2
      = mixedFontSeq mixedTwiceNodeW.characters.length [arial, arial]
    ∧ (processTransNode allFontsOk [("jams_hello", "NEW")] mixedTwiceNodeW).1.characters
      = "NEW" :=
  (mixed_font_mutation_loads_per_position allFontsOk [("jams_hello", "NEW")]
    mixedTwiceNodeW "NEW" [arial, arial] rfl rfl rfl rfl).2.1 (by decide)

end Claims

section SaveLemmas

variable {config : ContentfulConfig} {item : ContentfulSaveItem} {e : String}

/-- In the update path the first request is always the entry fetch. -/
theorem save_update_first_request (responses : List (Except String SaveResp))
    (hupd : item.isUpdate = true) (hid : item.entryId = some e) (hne : e ≠ "") :
    (saveItemToContentful config item responses).2.head? = some (.getEntry e) := by
  have hcond : (item.isUpdate && truthyOpt (some e)) = true := by
    simp [hupd, truthyOpt, hne]
  simp only [saveItemToContentful, hid, hcond, Option.getD_some, if_true]
  rcases responses with _ | ⟨r0, rs0⟩
  · rfl
  · rcases r0 with msg | r1
    · rfl
    · by_cases h1 : r1.ok <;> simp only [h1] <;>
      · rcases rs0 with _ | ⟨r0', rs0'⟩
        · simp
        · rcases r0' with msg' | r2
          · simp
          · by_cases h2 : r2.ok <;> simp only [h2] <;>
            · rcases rs0' with _ | ⟨r0'', _⟩
              · simp
              · rcases r0'' with msg'' | r3
                · simp
                · by_cases h3 : r3.ok <;> simp [h3]

/-- In the update path, once the entry fetch succeeded the next request is
the update carrying the fetched `sys.version`. -/
theorem save_update_second_request (r1 : SaveResp) (rs : List (Except String SaveResp))
    (hupd : item.isUpdate = true) (hid : item.entryId = some e) (hne : e ≠ "")
    (h1 : r1.ok = true) :
    ((saveItemToContentful config item (.ok r1 :: rs)).2.take 2)
      = [.getEntry e, .putUpdate e r1.sysVersion item.key item.value] := by
  have hcond : (item.isUpdate && truthyOpt (some e)) = true := by
    simp [hupd, truthyOpt, hne]
  simp only [saveItemToContentful, hid, hcond, Option.getD_some, if_true]
  rcases rs with _ | ⟨r0, rs0⟩
  · simp [h1]
  · rcases r0 with msg | r2
    · simp [h1]
    · by_cases h2 : r2.ok <;>
      · rcases rs0 with _ | ⟨r0', _⟩
        · simp [h1, h2]
        · rcases r0' with msg' | r3
          · simp [h1, h2]
          · by_cases h3 : r3.ok <;> simp [h1, h2, h3]

/-- In the update path, a failed update yields `success = false` with
`errorDetails.operation = "update"` and no publish request in the trace. -/
theorem save_update_conflict (r1 r2 : SaveResp) (rs : List (Except String SaveResp))
    (hupd : item.isUpdate = true) (hid : item.entryId = some e) (hne : e ≠ "")
    (h1 : r1.ok = true) (h2 : r2.ok = false) :
    (saveItemToContentful config item (.ok r1 :: .ok r2 :: rs)).1.success = false
    ∧ ((saveItemToContentful config item (.ok r1 :: .ok r2 :: rs)).1.errorDetails.map
        (fun d => d.operation)) = some "update"
    ∧ ∀ q ∈ (saveItemToContentful config item (.ok r1 :: .ok r2 :: rs)).2,
        q.isPublish = false := by
  have hcond : (item.isUpdate && truthyOpt (some e)) = true := by
    simp [hupd, truthyOpt, hne]
  simp only [saveItemToContentful, hid, hcond, Option.getD_some, if_true]
  simp [h1, h2, SaveReq.isPublish]

/-- In the update path a publish request is issued only when both the fetch
and the update responses came back OK. -/
theorem save_update_publish_only_after_success
    (responses : List (Except String SaveResp))
    (hupd : item.isUpdate = true) (hid : item.entryId = some e) (hne : e ≠ "") :
    ∀ q ∈ (saveItemToContentful config item responses).2, q.isPublish = true →
      ∃ r1 r2 rs, responses = .ok r1 :: .ok r2 :: rs
        ∧ r1.ok = true ∧ r2.ok = true := by
  have hcond : (item.isUpdate && truthyOpt (some e)) = true := by
    simp [hupd, truthyOpt, hne]
  simp only [saveItemToContentful, hid, hcond, Option.getD_some, if_true]
  rcases responses with _ | ⟨r0, rs0⟩
  · simp [SaveReq.isPublish]
  · rcases r0 with msg | r1
    · simp [SaveReq.isPublish]
    · by_cases h1 : r1.ok
      · rcases rs0 with _ | ⟨r0', rs0'⟩
        · simp [h1, SaveReq.isPublish]
        · rcases r0' with msg' | r2
          · simp [h1, SaveReq.isPublish]
          · by_cases h2 : r2.ok
            · exact fun q _ _ => ⟨r1, r2, rs0', rfl, h1, h2⟩
            · simp [h1, h2, SaveReq.isPublish]
      · simp [h1, SaveReq.isPublish]

end SaveLemmas

section Claims2

/-- C2: for a save of an existing item (`isUpdate` with an entry id),
`saveItemToContentful` first fetches the entry (the trace starts with the
GET), then — when the fetch succeeds — submits the update carrying the
fetched version, and issues a publish call only after both the fetch and
the update succeeded; when the update response fails (e.g. HTTP 409) the
result has `success = false` with `errorDetails.operation = "update"` and
no publish request appears in the trace. -/
theorem saveItemToContentful_update_protocol
    (config : ContentfulConfig) (item : ContentfulSaveItem)
    (responses : List (Except String SaveResp)) (e : String)
    (hupd : item.isUpdate = true) (hid : item.entryId = some e) (hne : e ≠ "") :
    (saveItemToContentful config item responses).2.head? = some (.getEntry e)
    ∧ (∀ (r1 : SaveResp) rs, responses = .ok r1 :: rs → r1.ok = true →
        ((saveItemToContentful config item responses).2.take 2)
          = [.getEntry e, .putUpdate e r1.sysVersion item.key item.value])
    ∧ (∀ (r1 r2 : SaveResp) rs, responses = .ok r1 :: .ok r2 :: rs →
        r1.ok = true → r2.ok = false →
        (saveItemToContentful config item responses).1.success = false
        ∧ ((saveItemToContentful config item responses).1.errorDetails.map
            (fun d => d.operation)) = some "update"
        ∧ ∀ q ∈ (saveItemToContentful config item responses).2, q.isPublish = false)
    ∧ (∀ q ∈ (saveItemToContentful config item responses).2, q.isPublish = true →
        ∃ r1 r2 rs, responses = .ok r1 :: .ok r2 :: rs
          ∧ SaveResp.ok r1 = true ∧ SaveResp.ok r2 = true) := by
  refine ⟨save_update_first_request responses hupd hid hne, ?_, ?_, ?_⟩
  · intro r1 rs hresp h1
    subst hresp
    exact save_update_second_request r1 rs hupd hid hne h1
  · intro r1 r2 rs hresp h1 h2
    subst hresp
    exact save_update_conflict r1 r2 rs hupd hid hne h1 h2
  · exact save_update_publish_only_after_success responses hupd hid hne

/-- C2, witness: the spec's conflict scenario — entry `E1` fetched at
version 5, update answered with HTTP 409.  The trace is exactly the GET
followed by the update carrying version 5 (no publish), and the result is
`success = false` with operation `update`. -/
theorem saveItemToContentful_update_protocol_witness :
    (saveItemToContentful defaultConfig
        ⟨"jams_hello", "New", true, some "E1"⟩
        [.ok ⟨true, 200, "", "E1", 5⟩, .ok ⟨false, 409, "conflict", "E1", 5⟩]).1.success
      = false
    ∧ ((saveItemToContentful defaultConfig
        ⟨"jams_hello", "New", true, some "E1"⟩
        [.ok ⟨true, 200, "", "E1", 5⟩, .ok ⟨false, 409, "conflict", "E1", 5⟩]).1.errorDetails.map
          (fun d => d.operation)) = some "update"
    ∧ ∀ q ∈ (saveItemToContentful defaultConfig
        ⟨"jams_hello", "New", true, some "E1"⟩
        [.ok ⟨true, 200, "", "E1", 5⟩, .ok ⟨false, 409, "conflict", "E1", 5⟩]).2,
        q.isPublish = false :=
  (saveItemToContentful_update_protocol defaultConfig
      ⟨"jams_hello", "New", true, some "E1"⟩
      [.ok ⟨true, 200, "", "E1", 5⟩, .ok ⟨false, 409, "conflict", "E1", 5⟩] "E1"
      rfl rfl (by decide)).2.2.1
    ⟨true, 200, "", "E1", 5⟩ ⟨false, 409, "conflict", "E1", 5⟩ [] rfl rfl rfl

/-- C7, counterexample: the HTTP status mapping is not uniform across
gateway calls.  A 401 response makes `fetchLocales` report the
invalid-credentials condition, but the very same status on the first page
of `fetchAllContentfulItems` is wrapped into the generic
`HTTP <status>: <statusText>` failure — the produced error is different and
carries no credentials signal (splitting it on the credentials marker finds
nothing). -/
theorem http_status_mapping_not_uniform :
    fetchLocales (.ok ⟨false, 401, none⟩)
      = .error "Failed to load locales: Invalid API credentials"
    ∧ fetchAllContentfulItems defaultConfig
        (.ok ⟨false, 401, "Unauthorized", ⟨0, none⟩⟩) (fun _ => .error "unused")
      = .error "Failed to fetch Contentful items: HTTP 401: Unauthorized"
    ∧ ¬ List.IsInfix "Invalid API credentials".data
        "Failed to fetch Contentful items: HTTP 401: Unauthorized".data := by
  exact ⟨rfl, rfl, by decide⟩

/-- C7 (amended): the 401/403 → invalid-credentials, 404 →
context-dependent not-found (space/environment for `fetchLocales` and
`fetchContentTypes`, content type for `fetchTranslations` and
`fetchRecords`), other non-2xx → operation-failed mapping holds for the
four fetch calls, each wrapped in its context prefix; but it is not
uniform across every gateway call: `validateContentType` has no
credentials branch — 404 yields `Content type not found` and every other
non-2xx status, 401 and 403 included, yields the generic
`Content type check failed` — and `fetchAllContentfulItems` maps every
non-2xx first-page status, 401/403/404 included, to the generic
`HTTP <status>: <statusText>` failure carrying the status code, with the
statuses of the remaining pages never inspected. -/
theorem http_status_mapping_per_operation (config : ContentfulConfig) :
    (∀ resp : ItemsResp LocaleItem, resp.ok = false →
      ((resp.status = 401 ∨ resp.status = 403) →
        fetchLocales (.ok resp) = .error "Failed to load locales: Invalid API credentials")
      ∧ (resp.status = 404 →
        fetchLocales (.ok resp)
          = .error "Failed to load locales: Space or environment not found")
      ∧ (resp.status ≠ 401 → resp.status ≠ 403 → resp.status ≠ 404 →
        fetchLocales (.ok resp) = .error "Failed to load locales: Failed to fetch locales"))
    ∧ (∀ resp : ItemsResp TransItem, resp.ok = false →
      ((resp.status = 401 ∨ resp.status = 403) →
        fetchTranslations config "en-US" (.ok resp)
          = .error "Failed to load translations: Invalid API credentials")
      ∧ (resp.status = 404 →
        fetchTranslations config "en-US" (.ok resp)
          = .error "Failed to load translations: Content type not found")
      ∧ (resp.status ≠ 401 → resp.status ≠ 403 → resp.status ≠ 404 →
        fetchTranslations config "en-US" (.ok resp)
          = .error "Failed to load translations: Failed to fetch translations"))
    ∧ (∀ resp : ItemsResp Unit, resp.ok = false →
      ((resp.status = 401 ∨ resp.status = 403) →
        fetchContentTypes (.ok resp)
          = .error "Failed to load content types: Invalid API credentials")
      ∧ (resp.status = 404 →
        fetchContentTypes (.ok resp)
          = .error "Failed to load content types: Space or environment not found")
      ∧ (resp.status ≠ 401 → resp.status ≠ 403 → resp.status ≠ 404 →
        fetchContentTypes (.ok resp)
          = .error "Failed to load content types: Failed to fetch content types"))
    ∧ (∀ resp : ItemsResp Unit, resp.ok = false →
      ((resp.status = 401 ∨ resp.status = 403) →
        fetchRecords (.ok resp)
          = .error "Failed to load records: Invalid API credentials")
      ∧ (resp.status = 404 →
        fetchRecords (.ok resp) = .error "Failed to load records: Content type not found")
      ∧ (resp.status ≠ 401 → resp.status ≠ 403 → resp.status ≠ 404 →
        fetchRecords (.ok resp) = .error "Failed to load records: Failed to fetch records"))
    ∧ (∀ resp : ContentTypeResp, resp.ok = false →
      ((resp.status = 404 →
        validateContentType config (.ok resp)
          = { success := false, error := some "Content type not found" })
      ∧ (resp.status ≠ 404 →
        validateContentType config (.ok resp)
          = { success := false, error := some "Content type check failed" })))
    ∧ (∀ (r : PageResp) (rest : Nat → Except String PageBody), r.ok = false →
        fetchAllContentfulItems config (.ok r) rest
          = .error ("Failed to fetch Contentful items: HTTP "
              ++ toString r.status ++ ": " ++ r.statusText)) := by
  refine ⟨?_, ?_, ?_, ?_, ?_, ?_⟩
  · intro resp hok
    refine ⟨?_, ?_, ?_⟩
    · rintro (h | h) <;>
        simp [fetchLocales, fetchLocalesCore, wrapErr, Except.bind, hok, h]
    · intro h
      have h401 : resp.status ≠ 401 := by omega
      have h403 : resp.status ≠ 403 := by omega
      simp [fetchLocales, fetchLocalesCore, wrapErr, Except.bind, hok, h401, h403, h]
    · intro h1 h2 h3
      simp [fetchLocales, fetchLocalesCore, wrapErr, Except.bind, hok, h1, h2, h3]
  · intro resp hok
    have htrim : ¬ jsTrim "en-US" = "" := by decide
    refine ⟨?_, ?_, ?_⟩
    · rintro (h | h) <;>
        simp [fetchTranslations, fetchTranslationsCore, wrapErr, Except.bind, hok, h, htrim]
    · intro h
      have h401 : resp.status ≠ 401 := by omega
      have h403 : resp.status ≠ 403 := by omega
      simp [fetchTranslations, fetchTranslationsCore, wrapErr, Except.bind, hok,
        h401, h403, h, htrim]
    · intro h1 h2 h3
      simp [fetchTranslations, fetchTranslationsCore, wrapErr, Except.bind, hok,
        h1, h2, h3, htrim]
  · intro resp hok
    refine ⟨?_, ?_, ?_⟩
    · rintro (h | h) <;>
        simp [fetchContentTypes, fetchContentTypesCore, wrapErr, Except.bind, hok, h]
    · intro h
      have h401 : resp.status ≠ 401 := by omega
      have h403 : resp.status ≠ 403 := by omega
      simp [fetchContentTypes, fetchContentTypesCore, wrapErr, Except.bind, hok,
        h401, h403, h]
    · intro h1 h2 h3
      simp [fetchContentTypes, fetchContentTypesCore, wrapErr, Except.bind, hok,
        h1, h2, h3]
  · intro resp hok
    refine ⟨?_, ?_, ?_⟩
    · rintro (h | h) <;>
        simp [fetchRecords, fetchRecordsCore, wrapErr, Except.bind, hok, h]
    · intro h
      have h401 : resp.status ≠ 401 := by omega
      have h403 : resp.status ≠ 403 := by omega
      simp [fetchRecords, fetchRecordsCore, wrapErr, Except.bind, hok, h401, h403, h]
    · intro h1 h2 h3
      simp [fetchRecords, fetchRecordsCore, wrapErr, Except.bind, hok, h1, h2, h3]
  · intro resp hok
    refine ⟨?_, ?_⟩
    · intro h
      simp [validateContentType, hok, h]
    · intro h
      simp [validateContentType, hok, h]
  · intro r rest hok
    have hlit : ("Failed to fetch Contentful items: " ++ "HTTP " : String)
        = "Failed to fetch Contentful items: HTTP " := rfl
    simp [fetchAllContentfulItems, wrapErr, hok, ← String.append_assoc, hlit]

/-- C7, witness: the amended mapping at concrete statuses — 403 on locales,
404 on translations, 401 on content types, 404 on records, 401 and 403 on
`validateContentType` (both yield the generic check-failed message, not a
credentials condition), and a 500 first page of the paginated fetch. -/
theorem http_status_mapping_per_operation_witness :
    fetchLocales (.ok ⟨false, 403, none⟩)
      = .error "Failed to load locales: Invalid API credentials"
    ∧ fetchTranslations defaultConfig "en-US" (.ok ⟨false, 404, none⟩)
      = .error "Failed to load translations: Content type not found"
    ∧ fetchContentTypes (.ok (⟨false, 401, none⟩ : ItemsResp Unit))
      = .error "Failed to load content types: Invalid API credentials"
    ∧ fetchRecords (.ok (⟨false, 404, none⟩ : ItemsResp Unit))
      = .error "Failed to load records: Content type not found"
    ∧ validateContentType defaultConfig (.ok ⟨false, 401, none⟩)
      = { success := false, error := some "Content type check failed" }
    ∧ validateContentType defaultConfig (.ok ⟨false, 403, none⟩)
      = { success := false, error := some "Content type check failed" }
    ∧ fetchAllContentfulItems defaultConfig
        (.ok ⟨false, 500, "Server Error", ⟨0, none⟩⟩) (fun _ => .error "unused")
      = .error ("Failed to fetch Contentful items: HTTP "
          ++ toString (500 : Nat) ++ ": " ++ "Server Error") :=
  ⟨(http_status_mapping_per_operation defaultConfig).1 ⟨false, 403, none⟩ rfl
      |>.1 (Or.inr rfl),
   (http_status_mapping_per_operation defaultConfig).2.1 ⟨false, 404, none⟩ rfl
      |>.2.1 rfl,
   (http_status_mapping_per_operation defaultConfig).2.2.1 ⟨false, 401, none⟩ rfl
      |>.1 (Or.inl rfl),
   (http_status_mapping_per_operation defaultConfig).2.2.2.1 ⟨false, 404, none⟩ rfl
      |>.2.1 rfl,
   (http_status_mapping_per_operation defaultConfig).2.2.2.2.1 ⟨false, 401, none⟩ rfl
      |>.2 (by decide),
   (http_status_mapping_per_operation defaultConfig).2.2.2.2.1 ⟨false, 403, none⟩ rfl
      |>.2 (by decide),
   (http_status_mapping_per_operation defaultConfig).2.2.2.2.2
      ⟨false, 500, "Server Error", ⟨0, none⟩⟩ (fun _ => .error "unused") rfl⟩

end Claims2

section MergeLemmas

variable {config : ContentfulConfig}

/-- A binding of `insertA m k' v'` is the inserted pair or a binding of `m`. -/
theorem mem_insertA {α : Type} {k k' : String} {v v' : α} :
    ∀ {m : List (String × α)}, (k, v) ∈ insertA m k' v' →
      (k = k' ∧ v = v') ∨ (k, v) ∈ m := by
  intro m
  induction m with
  | nil => intro h; simp [insertA] at h; exact Or.inl h
  | cons p rest ih =>
    obtain ⟨pk, pv⟩ := p
    intro h
    by_cases hk : pk = k'
    · rw [show insertA ((pk, pv) :: rest) k' v' = (k', v') :: rest from by
        simp [insertA, hk]] at h
      rcases List.mem_cons.mp h with heq | h
      · exact Or.inl (by simpa using heq)
      · exact Or.inr (List.mem_cons_of_mem _ h)
    · rw [show insertA ((pk, pv) :: rest) k' v' = (pk, pv) :: insertA rest k' v' from by
        simp [insertA, hk]] at h
      rcases List.mem_cons.mp h with heq | h
      · exact Or.inr (by simp [heq])
      · rcases ih h with h' | h'
        · exact Or.inl h'
        · exact Or.inr (List.mem_cons_of_mem _ h')

/-- The inserted key is a key of `insertA m k v`. -/
theorem key_mem_insertA {α : Type} (k : String) (v : α) :
    ∀ (m : List (String × α)), k ∈ (insertA m k v).map Prod.fst := by
  intro m
  induction m with
  | nil => simp [insertA]
  | cons p rest ih =>
    by_cases hk : p.1 = k
    · simp [insertA, hk]
    · simpa [insertA, hk] using Or.inr ih

/-- Existing keys survive `insertA`. -/
theorem key_mem_insertA_of_mem {α : Type} {k : String} (k' : String) (v' : α) :
    ∀ {m : List (String × α)}, k ∈ m.map Prod.fst →
      k ∈ (insertA m k' v').map Prod.fst := by
  intro m
  induction m with
  | nil => intro h; simp at h
  | cons p rest ih =>
    obtain ⟨pk, pv⟩ := p
    intro h
    simp only [List.map_cons, List.mem_cons] at h
    by_cases hk : pk = k'
    · rw [show insertA ((pk, pv) :: rest) k' v' = (k', v') :: rest from by
        simp [insertA, hk], List.map_cons]
      rcases h with rfl | h
      · exact List.mem_cons.mpr (Or.inl hk)
      · exact List.mem_cons.mpr (Or.inr h)
    · rw [show insertA ((pk, pv) :: rest) k' v' = (pk, pv) :: insertA rest k' v' from by
        simp [insertA, hk], List.map_cons]
      rcases h with rfl | h
      · exact List.mem_cons.mpr (Or.inl rfl)
      · exact List.mem_cons.mpr (Or.inr (ih h))

/-- Every binding of the merged map was contributed by some entry of the
processed list. -/
theorem mem_processItems_foldl {k : String} {v : EntryVal} :
    ∀ (l : List EntryItem) (acc : List (String × EntryVal)),
      (k, v) ∈ l.foldl (processStep config) acc →
      (k, v) ∈ acc ∨ ∃ e ∈ l, entryBinding config e = some (k, v) := by
  intro l
  induction l with
  | nil => intro acc h; exact Or.inl h
  | cons e rest ih =>
    intro acc h
    rcases ih (processStep config acc e) h with h' | ⟨e', he', hb⟩
    · unfold processStep at h'
      cases hb : entryBinding config e with
      | none => rw [hb] at h'; exact Or.inl h'
      | some kv =>
        rcases kv with ⟨k', v'⟩
        rw [hb] at h'
        rcases mem_insertA h' with ⟨rfl, rfl⟩ | h''
        · exact Or.inr ⟨e, List.mem_cons_self e rest, hb⟩
        · exact Or.inl h''
    · exact Or.inr ⟨e', List.mem_cons_of_mem e he', hb⟩

/-- Keys present in the accumulator survive the processing loop. -/
theorem key_mem_foldl_of_mem_acc {k : String} :
    ∀ (l : List EntryItem) (acc : List (String × EntryVal)),
      k ∈ acc.map Prod.fst →
      k ∈ (l.foldl (processStep config) acc).map Prod.fst := by
  intro l
  induction l with
  | nil => intro acc h; exact h
  | cons e rest ih =>
    intro acc h
    refine ih (processStep config acc e) ?_
    unfold processStep
    cases hb : entryBinding config e with
    | none => exact h
    | some kv => exact key_mem_insertA_of_mem kv.1 kv.2 h

/-- Every usable entry's key is a key of the merged map. -/
theorem key_mem_foldl_of_binding {k : String} {v : EntryVal} :
    ∀ (l : List EntryItem) (acc : List (String × EntryVal)) (e : EntryItem),
      e ∈ l → entryBinding config e = some (k, v) →
      k ∈ (l.foldl (processStep config) acc).map Prod.fst := by
  intro l
  induction l with
  | nil => intro acc e h; simp at h
  | cons e0 rest ih =>
    intro acc e hmem hb
    rcases List.mem_cons.mp hmem with rfl | hmem'
    · refine key_mem_foldl_of_mem_acc rest (processStep config acc e) ?_
      unfold processStep
      rw [hb]
      exact key_mem_insertA k v acc
    · exact ih (processStep config acc e0) e hmem' hb

/-- An entry with a binding is not archived. -/
theorem entryBinding_archived_none {e : EntryItem} {kv : String × EntryVal}
    (h : entryBinding config e = some kv) : e.archivedVersion = none := by
  cases ha : e.archivedVersion with
  | none => rfl
  | some n => simp [entryBinding, ha] at h

/-- Archived entries do not influence the merge at all: processing a list is
the same as processing its non-archived sublist. -/
theorem foldl_processStep_filter_archived :
    ∀ (l : List EntryItem) (acc : List (String × EntryVal)),
      l.foldl (processStep config) acc
        = (l.filter (fun e => e.archivedVersion.isNone)).foldl (processStep config) acc := by
  intro l
  induction l with
  | nil => intro acc; rfl
  | cons e rest ih =>
    intro acc
    cases ha : e.archivedVersion with
    | none => simp [List.filter_cons, ha, List.foldl_cons, ih]
    | some n =>
      have hstep : processStep config acc e = acc := by
        simp [processStep, entryBinding, ha]
      simp [List.filter_cons, ha, List.foldl_cons, hstep, ih]

/-- Inserting a fresh key appends the binding. -/
theorem insertA_of_fresh {α : Type} {k : String} (v : α) :
    ∀ {m : List (String × α)}, k ∉ m.map Prod.fst → insertA m k v = m ++ [(k, v)] := by
  intro m
  induction m with
  | nil => intro; rfl
  | cons p rest ih =>
    intro h
    have hk : p.1 ≠ k := by
      intro hc
      exact h (by simp [hc.symm])
    have hrest : k ∉ rest.map Prod.fst := by
      intro hc
      exact h (by simp [hc])
    simp [insertA, hk, ih hrest]

/-- Processing entries whose bindings are all defined, with pairwise
distinct keys that are fresh for the accumulator, appends all bindings. -/
theorem foldl_processStep_of_fresh :
    ∀ (l : List EntryItem) (acc : List (String × EntryVal)),
      (∀ e ∈ l, (entryBinding config e).isSome = true) →
      ((l.filterMap (entryBinding config)).map Prod.fst).Nodup →
      (∀ k, k ∈ (l.filterMap (entryBinding config)).map Prod.fst →
        k ∉ acc.map Prod.fst) →
      l.foldl (processStep config) acc = acc ++ l.filterMap (entryBinding config) := by
  intro l
  induction l with
  | nil => intro acc _ _ _; simp
  | cons e rest ih =>
    intro acc hsome hnodup hfresh
    rcases Option.isSome_iff_exists.mp (hsome e (List.mem_cons_self e rest)) with ⟨⟨k, v⟩, hb⟩
    have hfm : (e :: rest).filterMap (entryBinding config)
        = (k, v) :: rest.filterMap (entryBinding config) := by
      simp [List.filterMap_cons, hb]
    rw [hfm] at hnodup hfresh
    rw [List.map_cons] at hnodup
    have hknotrest : k ∉ (rest.filterMap (entryBinding config)).map Prod.fst :=
      (List.nodup_cons.mp hnodup).1
    have hrestnodup : ((rest.filterMap (entryBinding config)).map Prod.fst).Nodup :=
      (List.nodup_cons.mp hnodup).2
    have hstep : processStep config acc e = acc ++ [(k, v)] := by
      unfold processStep
      rw [hb]
      exact insertA_of_fresh v (hfresh k (by simp))
    have hfresh' : ∀ k', k' ∈ (rest.filterMap (entryBinding config)).map Prod.fst →
        k' ∉ (acc ++ [(k, v)]).map Prod.fst := by
      intro k' hk' hc
      rcases List.mem_map.mp hc with ⟨q, hq, rfl⟩
      rcases List.mem_append.mp hq with hq' | hq'
      · exact hfresh q.1 (by simp [hk']) (List.mem_map_of_mem Prod.fst hq')
      · simp at hq'
        subst hq'
        exact hknotrest (by simpa using hk')
    calc (e :: rest).foldl (processStep config) acc
        = rest.foldl (processStep config) (acc ++ [(k, v)]) := by
          rw [List.foldl_cons, hstep]
      _ = (acc ++ [(k, v)]) ++ rest.filterMap (entryBinding config) :=
          ih (acc ++ [(k, v)]) (fun e' he' => hsome e' (List.mem_cons_of_mem e he'))
            hrestnodup hfresh'
      _ = acc ++ ((k, v) :: rest.filterMap (entryBinding config)) := by simp
      _ = acc ++ (e :: rest).filterMap (entryBinding config) := by rw [hfm]

/-- `filterMap` over a list where the function is everywhere defined keeps
the length. -/
theorem length_filterMap_of_isSome {α β : Type} {f : α → Option β} :
    ∀ {l : List α}, (∀ a ∈ l, (f a).isSome = true) →
      (l.filterMap f).length = l.length := by
  intro l
  induction l with
  | nil => intro; rfl
  | cons a rest ih =>
    intro h
    rcases Option.isSome_iff_exists.mp (h a (List.mem_cons_self a rest)) with ⟨b, hb⟩
    simp [List.filterMap_cons, hb, ih (fun a' ha' => h a' (List.mem_cons_of_mem a ha'))]

/-- Pointwise-equal page readers assemble the same entry list. -/
theorem flatMap_congr_mem {α β : Type} :
    ∀ (l : List α) (f g : α → List β), (∀ a ∈ l, f a = g a) →
      l.flatMap f = l.flatMap g := by
  intro l
  induction l with
  | nil => intro f g _; rfl
  | cons a rest ih =>
    intro f g h
    simp only [List.flatMap_cons]
    rw [h a (List.mem_cons_self a rest), ih f g (fun a' ha' => h a' (List.mem_cons_of_mem a ha'))]

/-- Witness keys are never empty. -/
theorem mkKeyW_ne_empty (i : Nat) : mkKeyW i ≠ "" := by
  intro h
  have := congrArg String.data h
  simp [mkKeyW] at this

/-- Witness keys are pairwise distinct. -/
theorem mkKeyW_injective : Function.Injective mkKeyW := by
  intro i j h
  have hdata : ('k' :: List.replicate i 'a') = ('k' :: List.replicate j 'a') :=
    congrArg String.data h
  simpa using congrArg List.length hdata

/-- The binding contributed by the `i`-th witness entry. -/
theorem entryBinding_mkEntryW (i : Nat) :
    entryBinding defaultConfig (mkEntryW i) = some (mkKeyW i, ⟨"v", mkKeyW i⟩) := by
  simp [entryBinding, mkEntryW, defaultConfig, extractField, lookupA, locFieldValue,
    mkKeyW_ne_empty i]

/-- `filterMap` of an everywhere-`some` function is a `map`. -/
theorem filterMap_some_fn {α β : Type} (h : α → β) :
    ∀ l : List α, l.filterMap (fun a => some (h a)) = l.map h := by
  intro l
  induction l with
  | nil => rfl
  | cons a rest ih => simp [List.filterMap_cons, ih]

end MergeLemmas

section Claims3

/-- C5: every entry carrying an `archivedVersion` marker is excluded from
the map `fetchAllContentfulItems` returns — the result equals the result of
processing only the non-archived entries, and every binding of the map was
contributed by a non-archived entry — while every non-archived entry with a
usable key and value does contribute its key to the map. -/
theorem fetchAll_excludes_archived (config : ContentfulConfig)
    (first : Except String PageResp) (rest : Nat → Except String PageBody)
    (r : PageResp) (h1 : first = .ok r) (h2 : r.ok = true) :
    fetchAllContentfulItems config first rest
      = .ok (processItems config (pageAssembly r rest))
    ∧ processItems config (pageAssembly r rest)
        = processItems config ((pageAssembly r rest).filter
            (fun e => e.archivedVersion.isNone))
    ∧ (∀ k v, (k, v) ∈ processItems config (pageAssembly r rest) →
        ∃ e ∈ pageAssembly r rest, e.archivedVersion = none
          ∧ entryBinding config e = some (k, v))
    ∧ (∀ e ∈ pageAssembly r rest, ∀ k v, entryBinding config e = some (k, v) →
        k ∈ (processItems config (pageAssembly r rest)).map Prod.fst) := by
  refine ⟨?_, ?_, ?_, ?_⟩
  · subst h1
    simp [fetchAllContentfulItems, wrapErr, h2]
  · exact foldl_processStep_filter_archived (pageAssembly r rest) []
  · intro k v h
    rcases mem_processItems_foldl (pageAssembly r rest) [] h with h' | ⟨e, he, hb⟩
    · simp at h'
    · exact ⟨e, he, entryBinding_archived_none hb, hb⟩
  · intro e he k v hb
    exact key_mem_foldl_of_binding (pageAssembly r rest) [] e he hb

/-- C5, witness: a page holding one live entry (`jams_hello`) and one
archived entry (`jams_old`): the merged map's key set is exactly
`[jams_hello]` — the archived entry's key does not appear. -/
theorem fetchAll_excludes_archived_witness :
    fetchAllContentfulItems defaultConfig (.ok firstPageW) noRestW
      = .ok (processItems defaultConfig (pageAssembly firstPageW noRestW))
    ∧ (processItems defaultConfig (pageAssembly firstPageW noRestW)).map Prod.fst
        = ["jams_hello"] :=
  ⟨(fetchAll_excludes_archived defaultConfig (.ok firstPageW) noRestW firstPageW
      rfl rfl).1,
   by decide⟩

/-- C6: when the first page declares a total of 1500 (page size 1000), the
page-1 request is merged in, and — with every entry usable and all keys
distinct, 1000 items on the first page and 500 on the second — the merged
map holds exactly 1500 distinct keys. -/
theorem fetchAll_pagination_complete_1500 (config : ContentfulConfig)
    (r : PageResp) (rest : Nat → Except String PageBody)
    (l₀ l₁ : List EntryItem) (t₁ : Nat)
    (hok : r.ok = true) (htotal : r.body.total = 1500)
    (hitems : r.body.items = some l₀) (hp1 : rest 1 = .ok ⟨t₁, some l₁⟩)
    (hlen0 : l₀.length = 1000) (hlen1 : l₁.length = 500)
    (husable : ∀ e ∈ l₀ ++ l₁, (entryBinding config e).isSome = true)
    (hnodup : (((l₀ ++ l₁).filterMap (entryBinding config)).map Prod.fst).Nodup) :
    fetchAllContentfulItems config (.ok r) rest
      = .ok (processItems config (l₀ ++ l₁))
    ∧ ((processItems config (l₀ ++ l₁)).map Prod.fst).Nodup
    ∧ (processItems config (l₀ ++ l₁)).length = 1500 := by
  have hpages : remainingPageNums r.body.total 1000 = [1] := by
    rw [htotal]; rfl
  have hassembly : pageAssembly r rest = l₀ ++ l₁ := by
    unfold pageAssembly
    rw [hpages]
    simp [pageItems, hitems, hp1]
  have heq : processItems config (l₀ ++ l₁)
      = [] ++ (l₀ ++ l₁).filterMap (entryBinding config) :=
    foldl_processStep_of_fresh (l₀ ++ l₁) [] husable hnodup (by simp)
  refine ⟨?_, ?_, ?_⟩
  · rw [show processItems config (l₀ ++ l₁)
        = processItems config (pageAssembly r rest) from by rw [hassembly]]
    simp [fetchAllContentfulItems, wrapErr, hok]
  · rw [heq]
    simpa using hnodup
  · rw [heq, List.nil_append, length_filterMap_of_isSome husable, List.length_append,
      hlen0, hlen1]

/-- C6, witness: the concrete 1500-entry scenario (1000 + 500 distinct keys
across two pages) merges to exactly 1500 distinct keys. -/
theorem fetchAll_pagination_complete_1500_witness :
    fetchAllContentfulItems defaultConfig (.ok firstPage1500W) restW
      = .ok (processItems defaultConfig (pageOneW ++ pageTwoW))
    ∧ ((processItems defaultConfig (pageOneW ++ pageTwoW)).map Prod.fst).Nodup
    ∧ (processItems defaultConfig (pageOneW ++ pageTwoW)).length = 1500 := by
  have hcat : pageOneW ++ pageTwoW = (List.range 1500).map mkEntryW := by
    rw [pageOneW, pageTwoW, ← List.map_append, List.take_append_drop]
  refine fetchAll_pagination_complete_1500 defaultConfig firstPage1500W restW
    pageOneW pageTwoW 0 rfl rfl rfl rfl ?_ ?_ ?_ ?_
  · simp [pageOneW]
  · simp [pageTwoW]
  · intro e he
    rw [hcat] at he
    rcases List.mem_map.mp he with ⟨i, _, rfl⟩
    simp [entryBinding_mkEntryW]
  · rw [hcat, List.filterMap_map]
    have hfn : (entryBinding defaultConfig ∘ mkEntryW)
        = fun i => some (mkKeyW i, ⟨"v", mkKeyW i⟩) :=
      funext fun i => entryBinding_mkEntryW i
    rw [hfn, filterMap_some_fn, List.map_map]
    exact (List.nodup_range 1500).map
      (fun i j h => mkKeyW_injective (by simpa using h))

/-- C10: a rejected first-page request rejects the whole call with the
wrapped error, while for any successful first page the call resolves
successfully whatever the remaining page requests do — a failing later page
is indistinguishable from a page that successfully returned zero items, so
its entries are silently missing from the merged map. -/
theorem fetchAll_late_page_failure_swallowed (config : ContentfulConfig) :
    (∀ (e : String) (rest : Nat → Except String PageBody),
        fetchAllContentfulItems config (.error e) rest
          = .error ("Failed to fetch Contentful items: " ++ e))
    ∧ (∀ (r : PageResp) (rest : Nat → Except String PageBody), r.ok = true →
        fetchAllContentfulItems config (.ok r) rest
          = .ok (processItems config (pageAssembly r rest)))
    ∧ (∀ (r : PageResp) (rest : Nat → Except String PageBody) (k : Nat) (msg : String),
        rest k = .error msg →
        fetchAllContentfulItems config (.ok r) rest
          = fetchAllContentfulItems config (.ok r)
              (fun j => if j = k then .ok ⟨0, some []⟩ else rest j)) := by
  refine ⟨fun e rest => rfl, ?_, ?_⟩
  · intro r rest hok
    simp [fetchAllContentfulItems, wrapErr, hok]
  · intro r rest k msg hk
    have hasm : pageAssembly r rest
        = pageAssembly r (fun j => if j = k then .ok ⟨0, some []⟩ else rest j) := by
      unfold pageAssembly
      congr 1
      refine flatMap_congr_mem _ _ _ ?_
      intro j _
      by_cases hj : j = k
      · subst hj
        simp [hk, pageItems]
      · simp [hj]
    by_cases hok : r.ok
    · simp [fetchAllContentfulItems, wrapErr, hok, hasm]
    · simp [fetchAllContentfulItems, wrapErr, hok]

/-- C10, witness: first page declares 1500 entries but carries one; the
page-1 request fails; the call still resolves successfully and the merged
map holds a single key — silently fewer than the declared total. -/
theorem fetchAll_late_page_failure_swallowed_witness :
    fetchAllContentfulItems defaultConfig (.ok firstSmallW) failRestW
      = .ok (processItems defaultConfig (pageAssembly firstSmallW failRestW))
    ∧ (processItems defaultConfig (pageAssembly firstSmallW failRestW)).length = 1
    ∧ firstSmallW.body.total = 1500 :=
  ⟨(fetchAll_late_page_failure_swallowed defaultConfig).2.1 firstSmallW failRestW rfl,
   by decide, rfl⟩

end Claims3

section IdemLemmas

/-- Reprocessing the node a pass produced changes nothing: the node is a
fixed point and the success contribution is the same. -/
theorem processTransNode_idem (loadOk : FontName → Bool)
    (tmap : List (String × String)) (n : TextNode) (hwf : wfFont n = true) :
    (processTransNode loadOk tmap (processTransNode loadOk tmap n).1).1
      = (processTransNode loadOk tmap n).1
    ∧ eventCount (processTransNode loadOk tmap
        (processTransNode loadOk tmap n).1).2.1
      = eventCount (processTransNode loadOk tmap n).2.1 := by
  by_cases hl : n.locked
  · simp [processTransNode_locked loadOk tmap n hl]
  · cases htr : lookupA tmap n.name with
    | none =>
      have h1 : processTransNode loadOk tmap n = (n, .untouched, []) := by
        simp [processTransNode, hl, htr]
      simp [h1]
    | some tr =>
      by_cases hm : n.hasMissingFont
      · have h1 : processTransNode loadOk tmap n
            = (n, .err (n.name ++ ": Missing font"), []) := by
          simp [processTransNode, hl, htr, hm]
        simp [h1]
      · cases hff : firstFailingFont loadOk n with
        | some f =>
          have h1 : processTransNode loadOk tmap n
              = (n, .err (n.name ++ ": " ++ fontFailMsg f),
                 loadCalls loadOk (requiredFonts n)) := by
            simp [processTransNode, hl, htr, hm, hff]
          simp [h1]
        | none =>
          have h1 : processTransNode loadOk tmap n
              = (setNodeChars n tr, .success, loadCalls loadOk (requiredFonts n)) := by
            simp [processTransNode, hl, htr, hm, hff]
          rw [h1]
          cases hfu : n.font with
          | uniform f =>
            have hload : loadOk f = true := by
              have h' : List.find? (fun g => !loadOk g) [f] = none := by
                simpa [firstFailingFont, requiredFonts, hfu] using hff
              simpa using List.find?_eq_none.mp h' f (by simp)
            have hn' : setNodeChars n tr = { n with characters := tr, font := .uniform f } := by
              simp [setNodeChars, hfu]
            rw [hn']
            have h2 : processTransNode loadOk tmap
                { n with characters := tr, font := .uniform f }
                = ({ n with characters := tr, font := .uniform f }, .success, [f]) := by
              simp [processTransNode, hl, htr, hm, firstFailingFont, requiredFonts,
                List.find?, hload, setNodeChars, loadCalls]
            simp [h2]
          | mixed l =>
            have hwf' : l.length = n.characters.length ∧ l ≠ [] := by
              have := hwf
              simp [wfFont, hfu] at this
              exact ⟨this.1, by
                intro hc
                simp [hc] at this⟩
            obtain ⟨hlen, hne⟩ := hwf'
            rcases l with _ | ⟨a, l'⟩
            · exact absurd rfl hne
            · have hall : ∀ g ∈ mixedFontSeq n.characters.length (a :: l'),
                  loadOk g = true := by
                intro g hg
                have h' : List.find? (fun g => !loadOk g)
                    (mixedFontSeq n.characters.length (a :: l')) = none := by
                  simpa [firstFailingFont, requiredFonts, hfu] using hff
                simpa using List.find?_eq_none.mp h' g hg
              have hlen0 : 0 < n.characters.length := by
                simp only [List.length_cons] at hlen
                omega
              have hload : loadOk a = true := by
                apply hall
                refine List.mem_map.mpr ⟨0, List.mem_range.mpr hlen0, ?_⟩
                simp [charFontAt]
              have hn' : setNodeChars n tr
                  = { n with characters := tr, font := .uniform a } := by
                simp [setNodeChars, hfu]
              rw [hn']
              have h2 : processTransNode loadOk tmap
                  { n with characters := tr, font := .uniform a }
                  = ({ n with characters := tr, font := .uniform a }, .success, [a]) := by
                simp [processTransNode, hl, htr, hm, firstFailingFont, requiredFonts,
                  List.find?, hload, setNodeChars, loadCalls]
              simp [h2]

/-- The node loop preserves every node's name. -/
theorem applyTransRun_names (loadOk : FontName → Bool)
    (tmap : List (String × String)) (test : String → Bool) :
    ∀ page : List TextNode,
      (applyTransRun loadOk tmap test page).nodes.map TextNode.name
        = page.map TextNode.name := by
  intro page
  induction page with
  | nil => rfl
  | cons n rest ih =>
    by_cases ht : test n.name
    · simp [applyTransRun, ht, processTransNode_name, ih]
    · simp [applyTransRun, ht, ih]

/-- A pass with zero successes mutated nothing. -/
theorem applyTransRun_nodes_of_count_zero (loadOk : FontName → Bool)
    (tmap : List (String × String)) (test : String → Bool) :
    ∀ page : List TextNode, (applyTransRun loadOk tmap test page).count = 0 →
      (applyTransRun loadOk tmap test page).nodes = page := by
  intro page
  induction page with
  | nil => intro _; rfl
  | cons n rest ih =>
    intro h
    by_cases ht : test n.name
    · have hsplit : eventCount (processTransNode loadOk tmap n).2.1 = 0
          ∧ (applyTransRun loadOk tmap test rest).count = 0 := by
        have h' := h
        simp only [applyTransRun, ht, if_pos] at h'
        omega
      have hfix := processTransNode_untouched_of_count_zero loadOk tmap n hsplit.1
      simp [applyTransRun, ht, hfix, ih hsplit.2]
    · have h' := h
      simp only [applyTransRun, ht, Bool.false_eq_true, if_false] at h'
      simp [applyTransRun, ht, ih h']

/-- Running the node loop a second time on its own output leaves the nodes
fixed and reproduces the success count. -/
theorem applyTransRun_idem (loadOk : FontName → Bool)
    (tmap : List (String × String)) (test : String → Bool) :
    ∀ page : List TextNode, (∀ n ∈ page, wfFont n = true) →
      (applyTransRun loadOk tmap test
          (applyTransRun loadOk tmap test page).nodes).nodes
        = (applyTransRun loadOk tmap test page).nodes
      ∧ (applyTransRun loadOk tmap test
          (applyTransRun loadOk tmap test page).nodes).count
        = (applyTransRun loadOk tmap test page).count := by
  intro page
  induction page with
  | nil => intro _; exact ⟨rfl, rfl⟩
  | cons n rest ih =>
    intro hwf
    have hwfn : wfFont n = true := hwf n (List.mem_cons_self n rest)
    have hwfrest : ∀ m ∈ rest, wfFont m = true :=
      fun m hm => hwf m (List.mem_cons_of_mem n hm)
    obtain ⟨ihn, ihc⟩ := ih hwfrest
    by_cases ht : test n.name
    · obtain ⟨hfix, hcnt⟩ := processTransNode_idem loadOk tmap n hwfn
      have htest' : test (processTransNode loadOk tmap n).1.name = true := by
        rw [processTransNode_name]; exact ht
      constructor
      · simp only [applyTransRun, ht, if_pos, htest']
        simp [hfix, ihn]
      · simp only [applyTransRun, ht, if_pos, htest']
        simp [hcnt, ihc]
    · constructor
      · simp only [applyTransRun, ht, Bool.false_eq_true, if_false]
        simp [applyTransRun, ht, ihn]
      · simp only [applyTransRun, ht, Bool.false_eq_true, if_false]
        simp [applyTransRun, ht, ihc]

end IdemLemmas

section Claims4

/-- C9: applying the same translation map twice in succession is idempotent:
with well-formed font bookkeeping on every node, the second
`applyTranslations` run returns exactly the same pair — every node's final
`characters` (indeed the whole page) and the returned success count (or
thrown error) coincide with the first run's. -/
theorem applyTranslations_idempotent
    (compile : String → Option (String → Bool)) (loadOk : FontName → Bool)
    (ts : List Translation) (config : ContentfulConfig) (page : List TextNode)
    (hwf : ∀ n ∈ page, wfFont n = true) :
    applyTranslations compile loadOk ts config
        (applyTranslations compile loadOk ts config page).1
      = applyTranslations compile loadOk ts config page := by
  cases hc : compile config.NODE_NAME_PATTERN with
  | none => simp [applyTranslations, hc]
  | some test =>
    by_cases hempty : (page.filter (fun n => test n.name)).isEmpty
    · simp [applyTranslations, hc, hempty]
    · by_cases hz : (applyTransRun loadOk (buildTranslationMap ts) test page).count = 0
      · have hnodes : (applyTransRun loadOk (buildTranslationMap ts) test page).nodes
            = page :=
          applyTransRun_nodes_of_count_zero loadOk (buildTranslationMap ts) test page hz
        have h1 : (applyTranslations compile loadOk ts config page).1 = page := by
          simp [applyTranslations, hc, hempty, hz, hnodes]
        rw [h1]
      · have h1 : applyTranslations compile loadOk ts config page
            = ((applyTransRun loadOk (buildTranslationMap ts) test page).nodes,
               .ok (applyTransRun loadOk (buildTranslationMap ts) test page).count) := by
          simp [applyTranslations, hc, hempty, hz]
        have hnames := applyTransRun_names loadOk (buildTranslationMap ts) test page
        have hlen : ((applyTransRun loadOk (buildTranslationMap ts) test page).nodes.filter
              (fun n => test n.name)).length
            = (page.filter (fun n => test n.name)).length := by
          rw [← List.countP_eq_length_filter, ← List.countP_eq_length_filter]
          have hcount := congrArg (List.countP test) hnames
          simpa [List.countP_map, Function.comp] using hcount
        have hempty' : ((applyTransRun loadOk (buildTranslationMap ts) test page).nodes.filter
            (fun n => test n.name)).isEmpty = false := by
          rcases hfilter : (applyTransRun loadOk (buildTranslationMap ts) test page).nodes.filter
              (fun n => test n.name) with _ | ⟨m, ms⟩
          · rw [hfilter] at hlen
            have hpagenil : page.filter (fun n => test n.name) = [] :=
              List.length_eq_zero.mp hlen.symm
            exact absurd (by simp [hpagenil]) hempty
          · rw [hfilter]
            rfl
        obtain ⟨hn2, hc2⟩ :=
          applyTransRun_idem loadOk (buildTranslationMap ts) test page hwf
        have hz2 : (applyTransRun loadOk (buildTranslationMap ts) test
            (applyTransRun loadOk (buildTranslationMap ts) test page).nodes).count ≠ 0 := by
          rw [hc2]; exact hz
        rw [h1]
        simp [applyTranslations, hc, hempty', hz2, hn2, hc2]
        exact hz

/-- C9, witness: a page holding a plain node, a mixed-font node and a locked
node, all well-formed: the second application returns exactly the first
application's result. -/
theorem applyTranslations_idempotent_witness :
    applyTranslations jamsCompile allFontsOk [⟨"jams_hello", "New"⟩] defaultConfig
        (applyTranslations jamsCompile allFontsOk [⟨"jams_hello", "New"⟩] defaultConfig
          [plainNodeW, mixedTwiceNodeW, lockedNodeW]).1
      = applyTranslations jamsCompile allFontsOk [⟨"jams_hello", "New"⟩] defaultConfig
          [plainNodeW, mixedTwiceNodeW, lockedNodeW] :=
  applyTranslations_idempotent jamsCompile allFontsOk [⟨"jams_hello", "New"⟩]
    defaultConfig [plainNodeW, mixedTwiceNodeW, lockedNodeW] (by decide)

end Claims4

end TranslatorWiz
